import Mathlib

/-!
Shallow embedding of the KeePass 1.x database codec of `kppy/database.py`
(class `KPDBv1`), written to check the natural-language specification of the
repository against the code.  Python byte strings are `List Nat` (each element
a byte value), Python ints are `Nat`/`Int`, and fallible code returns
`Option`/`Except`.  Loops are embedded either structurally or with an explicit
fuel parameter; a `none`/`error` result on fuel exhaustion corresponds to a
Python run that has not completed within that recursion budget.
-/

namespace KPDB

/-! ### Date codec (`KPDBv1._pack_date`, `KPDBv1._get_date`) -/

/-- `KPDBv1._pack_date` (database.py:991-1004): encode a broken-down timestamp
into the 5 packed bytes `dw1..dw5`, mirroring the source bit operations. -/
def pack_date (y mon d h mi s : Nat) : List Nat :=
  let dw1 := 0x0000FFFF &&& ((y >>> 6) &&& 0x0000003F)
  let dw2 := 0x0000FFFF &&& (((y &&& 0x0000003F) <<< 2) ||| ((mon >>> 2) &&& 0x00000003))
  let dw3 := 0x0000FFFF &&& (((mon &&& 0x0000003) <<< 6) ||| ((d &&& 0x0000001F) <<< 1)
              ||| ((h >>> 4) &&& 0x00000001))
  let dw4 := 0x0000FFFF &&& (((h &&& 0x0000000F) <<< 4) ||| ((mi >>> 2) &&& 0x0000000F))
  let dw5 := 0x0000FFFF &&& (((mi &&& 0x00000003) <<< 6) ||| (s &&& 0x0000003F))
  [dw1, dw2, dw3, dw4, dw5]

/-- A decoded timestamp `(y, mon, d, h, min_, s)`. -/
abbrev DateT := Nat × Nat × Nat × Nat × Nat × Nat

/-- The pure bit computation of `KPDBv1._get_date` (database.py:976-988):
`dw1..dw5` are the five unpacked bytes, i.e. `dwk` is byte index `k-1`. -/
def get_date_raw (b : List Nat) : DateT :=
  let dw1 := b.getD 0 0
  let dw2 := b.getD 1 0
  let dw3 := b.getD 2 0
  let dw4 := b.getD 3 0
  let dw5 := b.getD 4 0
  let y := (dw1 <<< 6) ||| (dw2 >>> 2)
  let mon := ((dw2 &&& 0x03) <<< 2) ||| (dw3 >>> 6)
  let d := (dw3 >>> 1) &&& 0x1F
  let h := ((dw3 &&& 0x01) <<< 4) ||| (dw4 >>> 4)
  let min_ := ((dw4 &&& 0x0F) <<< 2) ||| (dw5 >>> 6)
  let s := dw5 &&& 0x3F
  (y, mon, d, h, min_, s)

/-- Python `datetime` leap-year rule (external stdlib semantics, needed because
`_get_date` constructs a `datetime` which validates its arguments). -/
def leap_year (y : Nat) : Bool :=
  y % 4 == 0 && (y % 100 != 0 || y % 400 == 0)

/-- Days in a month per Python `datetime` (external stdlib semantics). -/
def days_in_month (y mon : Nat) : Nat :=
  if mon = 2 then (if leap_year y then 29 else 28)
  else if mon = 4 ∨ mon = 6 ∨ mon = 9 ∨ mon = 11 then 30
  else 31

/-- Python `datetime(y, mon, d, h, min_, s)` argument validation (external
stdlib semantics; out-of-range arguments raise `ValueError`). -/
def datetime_ok (t : DateT) : Bool :=
  let (y, mon, d, h, mi, s) := t
  1 ≤ y && y ≤ 9999 && 1 ≤ mon && mon ≤ 12 && 1 ≤ d && d ≤ days_in_month y mon
    && h ≤ 23 && mi ≤ 59 && s ≤ 59

/-- Error kinds raised inside `KPDBv1.load` and its helpers.  Python exception
classes are collapsed onto the step of the source that raises them. -/
inductive LoadErr where
  /-- `struct.error`: fewer bytes available than the unpack format needs. -/
  | shortRead
  /-- `KPError('Unexpected error: Offset is out of range...')`. -/
  | offsetRange
  /-- `KPError('Found entry without group!')`. -/
  | orphan
  /-- `KPError('Invalid group tree')` from `_create_group_tree`. -/
  | invalidTree
  /-- `IndexError` (e.g. `levels[0]` on an empty list). -/
  | indexError
  /-- `ValueError` from `datetime(...)` on an out-of-range date. -/
  | badDate
  /-- `UnicodeDecodeError` from `bytes.decode('utf-8')` with no fallback. -/
  | badUtf8
  /-- Not a Python exception: the modelled loop has not finished within the
  given fuel budget. -/
  | outOfFuel
deriving DecidableEq, Repr

deriving instance DecidableEq for Except

/-- `KPDBv1._get_date` (database.py:972-989): unpack 5 bytes (`struct.error`
if fewer are available) and build a `datetime` (which validates ranges). -/
def get_date (content : List Nat) : Except LoadErr DateT :=
  if content.length < 5 then .error .shortRead
  else if datetime_ok (get_date_raw (content.take 5)) then
    .ok (get_date_raw (content.take 5))
  else .error .badDate

/-- The month formula the spec asserts for the date codec: it reads the fourth
byte `b3`, not the third byte `b2` (this is the spec-side definition to be
compared with `get_date_raw`, which reads `date_field[2]`). -/
def spec_month_from_b3 (b : List Nat) : Nat :=
  ((b.getD 1 0 &&& 0x03) <<< 2) ||| (b.getD 3 0 >>> 6)

/-! Bitwise-to-arithmetic bridge lemmas used for the date-codec proofs. -/

theorem and_one (n : Nat) : n &&& 1 = n % 2 := Nat.and_one_is_mod n

theorem and_three (n : Nat) : n &&& 3 = n % 4 := by
  simpa using Nat.and_pow_two_sub_one_eq_mod n 2

theorem and_fifteen (n : Nat) : n &&& 15 = n % 16 := by
  simpa using Nat.and_pow_two_sub_one_eq_mod n 4

theorem and_thirtyone (n : Nat) : n &&& 31 = n % 32 := by
  simpa using Nat.and_pow_two_sub_one_eq_mod n 5

theorem and_sixtythree (n : Nat) : n &&& 63 = n % 64 := by
  simpa using Nat.and_pow_two_sub_one_eq_mod n 6

theorem and_ffff (n : Nat) : n &&& 65535 = n % 65536 := by
  simpa using Nat.and_pow_two_sub_one_eq_mod n 16

theorem shr_one (n : Nat) : n >>> 1 = n / 2 := by
  simpa using Nat.shiftRight_eq_div_pow n 1

theorem shr_two (n : Nat) : n >>> 2 = n / 4 := by
  simpa using Nat.shiftRight_eq_div_pow n 2

theorem shr_four (n : Nat) : n >>> 4 = n / 16 := by
  simpa using Nat.shiftRight_eq_div_pow n 4

theorem shr_six (n : Nat) : n >>> 6 = n / 64 := by
  simpa using Nat.shiftRight_eq_div_pow n 6

theorem shl_one (n : Nat) : n <<< 1 = n * 2 := by
  simpa using Nat.shiftLeft_eq n 1

theorem shl_two (n : Nat) : n <<< 2 = n * 4 := by
  simpa using Nat.shiftLeft_eq n 2

theorem shl_four (n : Nat) : n <<< 4 = n * 16 := by
  simpa using Nat.shiftLeft_eq n 4

theorem shl_six (n : Nat) : n <<< 6 = n * 64 := by
  simpa using Nat.shiftLeft_eq n 6

theorem or_mul_two : ∀ x < 128, ∀ y < 2, x * 2 ||| y = x * 2 + y := by decide

theorem or_mul_four : ∀ x < 64, ∀ y < 4, x * 4 ||| y = x * 4 + y := by decide

theorem or_mul_sixteen : ∀ x < 16, ∀ y < 16, x * 16 ||| y = x * 16 + y := by decide

theorem or_mul_sixtyfour : ∀ x < 64, ∀ y < 64, x * 64 ||| y = x * 64 + y := by decide

/-- Bit-level round trip of the date codec, for years below 4096 (the packed
format keeps only 12 bits of the year: 6 in `dw1` and 6 in `dw2`). -/
theorem get_date_raw_pack_date (y mon d h mi s : Nat)
    (hy : y < 4096) (hm : mon ≤ 12) (hd : d ≤ 28) (hh : h ≤ 23)
    (hmi : mi ≤ 59) (hs : s ≤ 59) :
    get_date_raw (pack_date y mon d h mi s) = (y, mon, d, h, mi, s) := by
  have e1 : 0x0000FFFF &&& ((y >>> 6) &&& 0x0000003F) = y / 64 := by
    rw [shr_six, and_sixtythree, Nat.and_comm, and_ffff]; omega
  have e2 : 0x0000FFFF &&& (((y &&& 0x0000003F) <<< 2) ||| ((mon >>> 2) &&& 0x00000003))
      = (y % 64) * 4 + mon / 4 := by
    rw [shr_two, and_three, and_sixtythree, shl_two,
        or_mul_four (y % 64) (by omega) (mon / 4 % 4) (by omega),
        Nat.and_comm, and_ffff]
    omega
  have e3 : 0x0000FFFF &&& (((mon &&& 0x0000003) <<< 6) ||| ((d &&& 0x0000001F) <<< 1)
      ||| ((h >>> 4) &&& 0x00000001)) = (mon % 4) * 64 + d * 2 + h / 16 := by
    rw [shr_four, and_one, and_three, and_thirtyone, shl_six, shl_one,
        or_mul_sixtyfour (mon % 4) (by omega) (d % 32 * 2) (by omega)]
    have e : mon % 4 * 64 + d % 32 * 2 = (mon % 4 * 32 + d % 32) * 2 := by ring
    rw [e, or_mul_two (mon % 4 * 32 + d % 32) (by omega) (h / 16 % 2) (by omega),
        Nat.and_comm, and_ffff]
    omega
  have e4 : 0x0000FFFF &&& (((h &&& 0x0000000F) <<< 4) ||| ((mi >>> 2) &&& 0x0000000F))
      = (h % 16) * 16 + mi / 4 := by
    rw [shr_two, and_fifteen, and_fifteen, shl_four,
        or_mul_sixteen (h % 16) (by omega) (mi / 4 % 16) (by omega),
        Nat.and_comm, and_ffff]
    omega
  have e5 : 0x0000FFFF &&& (((mi &&& 0x00000003) <<< 6) ||| (s &&& 0x0000003F))
      = (mi % 4) * 64 + s := by
    rw [and_three, and_sixtythree, shl_six,
        or_mul_sixtyfour (mi % 4) (by omega) (s % 64) (by omega),
        Nat.and_comm, and_ffff]
    omega
  show get_date_raw [_, _, _, _, _] = _
  rw [e1, e2, e3, e4, e5]
  simp only [get_date_raw, List.getD, List.get?, Option.getD_some, Prod.mk.injEq]
  refine ⟨?_, ?_, ?_, ?_, ?_, ?_⟩
  · rw [shl_six, shr_two, or_mul_sixtyfour (y / 64) (by omega)
        (((y % 64) * 4 + mon / 4) / 4) (by omega)]
    omega
  · rw [and_three, shr_six, shl_two,
        or_mul_four (((y % 64) * 4 + mon / 4) % 4) (by omega)
          (((mon % 4) * 64 + d * 2 + h / 16) / 64) (by omega)]
    omega
  · rw [shr_one, and_thirtyone]; omega
  · rw [and_one, shl_four, shr_four,
        or_mul_sixteen (((mon % 4) * 64 + d * 2 + h / 16) % 2) (by omega)
          (((h % 16) * 16 + mi / 4) / 16) (by omega)]
    omega
  · rw [and_fifteen, shl_two, shr_six,
        or_mul_four (((h % 16) * 16 + mi / 4) % 16) (by omega)
          (((mi % 4) * 64 + s) / 64) (by omega)]
    omega
  · rw [and_sixtythree]; omega

theorem pack_date_length (y mon d h mi s : Nat) :
    (pack_date y mon d h mi s).length = 5 := rfl

theorem days_in_month_ge_28 (y mon : Nat) : 28 ≤ days_in_month y mon := by
  unfold days_in_month
  split
  · split <;> omega
  · split <;> omega

/-! ### Header packing on save (`KPDBv1.save`, database.py:399-413) -/

/-- `struct.pack('<H', n)`: two bytes, little-endian. -/
def pack_u16 (n : Nat) : List Nat := [n % 256, n / 256 % 256]

/-- `struct.pack('<I', n)`: four bytes, little-endian. -/
def pack_u32 (n : Nat) : List Nat :=
  [n % 256, n / 256 % 256, n / 65536 % 256, n / 16777216 % 256]

/-- `struct.pack('<16s', b)`: truncate to 16 bytes, NUL-pad on the right. -/
def pack_16s (b : List Nat) : List Nat :=
  b.take 16 ++ List.replicate (16 - b.length) 0

/-- `struct.pack('<32s', b)`: truncate to 32 bytes, NUL-pad on the right. -/
def pack_32s (b : List Nat) : List Nat :=
  b.take 32 ++ List.replicate (32 - b.length) 0

/-- The header-relevant attributes of a `KPDBv1` object during `save`.
`key_tranf_rounds` (note the missing `s`) is the attribute that the
assignment on database.py:412 actually creates; it starts absent. -/
structure SaveCtx where
  enc_flag : Nat
  version : Nat
  final_randomseed : List Nat
  enc_iv : List Nat
  num_groups : Nat
  num_entries : Nat
  contents_hash : List Nat
  transf_randomseed : List Nat
  key_transf_rounds : Nat
  key_tranf_rounds : Option Nat := none
deriving DecidableEq, Repr

/-- The header-packing block of `KPDBv1.save` (database.py:399-413): pack the
eleven header fields; between packing `transf_randomseed` and the rounds word
the source runs `if self._key_transf_rounds < 150000:
self._key_tranf_rounds = 150000` — the assignment writes the misspelled
attribute, so `_key_transf_rounds` itself is left unchanged and is what gets
packed at offset 120.  Returns the updated object attributes and the header
bytes. -/
def save_header (db : SaveCtx) : SaveCtx × List Nat :=
  let header := pack_u32 0x9AA2D903 ++ pack_u32 0xB54BFB65 ++ pack_u32 db.enc_flag
      ++ pack_u32 db.version ++ pack_16s db.final_randomseed ++ pack_16s db.enc_iv
      ++ pack_u32 db.num_groups ++ pack_u32 db.num_entries
      ++ pack_32s db.contents_hash ++ pack_32s db.transf_randomseed
  let db := if db.key_transf_rounds < 150000 then
      { db with key_tranf_rounds := some 150000 }
    else db
  (db, header ++ pack_u32 db.key_transf_rounds)

/-- `struct.unpack('<I', bs[off:off+4])`: decode four little-endian bytes. -/
def u32_at (bs : List Nat) (off : Nat) : Nat :=
  bs.getD off 0 + 256 * bs.getD (off + 1) 0 + 65536 * bs.getD (off + 2) 0
    + 16777216 * bs.getD (off + 3) 0

/-- A `KPDBv1` with `_key_transf_rounds = 1000` and otherwise empty/zero
header attributes, as `save` sees it when packing the header. -/
def low_rounds_ctx : SaveCtx :=
  { enc_flag := 2, version := 0x00030002,
    final_randomseed := List.replicate 16 0, enc_iv := List.replicate 16 0,
    num_groups := 1, num_entries := 0,
    contents_hash := List.replicate 32 0, transf_randomseed := List.replicate 32 0,
    key_transf_rounds := 1000 }

/-! ### Keyfile reader (`KPDBv1._get_filekey`, database.py:827-854) -/

/-- Value of one ASCII hex digit, or `none` for a non-hex byte (semantics of
Python's `binascii.unhexlify`, an external stdlib function). -/
def hex_digit_val (c : Nat) : Option Nat :=
  if 48 ≤ c ∧ c ≤ 57 then some (c - 48)
  else if 65 ≤ c ∧ c ≤ 70 then some (c - 55)
  else if 97 ≤ c ∧ c ≤ 102 then some (c - 87)
  else none

/-- `binascii.unhexlify` (external stdlib semantics): decode pairs of hex
digits into bytes; `none` models the `binascii.Error`/`TypeError` raised on a
non-hex byte or an odd-length input. -/
def unhexlify : List Nat → Option (List Nat)
  | [] => some []
  | [_] => none
  | c1 :: c2 :: rest =>
    match hex_digit_val c1, hex_digit_val c2, unhexlify rest with
    | some hi, some lo, some bs => some ((hi * 16 + lo) :: bs)
    | _, _, _ => none

/-- The `while True: buf = handler.read(2048) ...` loop of `_get_filekey`:
the byte stream fed to `sha.update`, reading 2048-byte chunks from the
current position until a short chunk is returned. -/
def sha_stream_read (rest : List Nat) : List Nat :=
  if _ : (rest.take 2048).length < 2048 then rest.take 2048
  else rest.take 2048 ++ sha_stream_read (rest.drop 2048)
termination_by rest.length
decreasing_by
  simp only [List.length_drop]
  rename_i h
  simp only [List.length_take] at h
  omega

/-- `KPDBv1._get_filekey` (database.py:827-854) as a function of the keyfile
content; `sha256` is the external `Crypto.Hash.SHA256` digest, taken as a
parameter (digest of the concatenation of all `update` calls).
- size 32: `handler.read(32)` is the key;
- size 64: try `binascii.unhexlify(handler.read(64))`; on failure
  `handler.seek(0)` and fall through;
- otherwise: SHA-256 over 2048-byte chunks from the current position
  (which is 0 on every path that reaches it). -/
def get_filekey (sha256 : List Nat → List Nat) (content : List Nat) : List Nat :=
  if content.length = 32 then content.take 32
  else if content.length = 64 then
    match unhexlify (content.take 64) with
    | some key => key
    | none => sha256 (sha_stream_read content)
  else sha256 (sha_stream_read content)

theorem sha_stream_read_eq (content : List Nat) :
    sha_stream_read content = content := by
  unfold sha_stream_read
  split
  · rename_i h
    simp only [List.length_take] at h
    exact List.take_of_length_le (by omega)
  · rw [sha_stream_read_eq (content.drop 2048)]
    exact List.take_append_drop 2048 content
termination_by content.length
decreasing_by
  simp only [List.length_drop]
  rename_i h
  simp only [List.length_take] at h
  omega

theorem unhexlify_length : ∀ bs ks : List Nat, unhexlify bs = some ks →
    2 * ks.length = bs.length
  | [], _, h => by cases h; rfl
  | [_], _, h => by simp [unhexlify] at h
  | c1 :: c2 :: rest, ks, h => by
    unfold unhexlify at h
    rcases h1 : hex_digit_val c1 with _ | v1 <;> rw [h1] at h
    · simp at h
    rcases h2 : hex_digit_val c2 with _ | v2 <;> rw [h2] at h
    · simp at h
    rcases h3 : unhexlify rest with _ | bs' <;> rw [h3] at h
    · simp at h
    · cases h
      have := unhexlify_length rest bs' h3
      simp only [List.length_cons]
      omega

/-! ### Tree builder (`KPDBv1._create_group_tree`, database.py:1006-1031) -/

/-- A parent reference assigned by the tree builder: the root group or the
group at flat-list index `j`. -/
inductive PRef where
  | root
  | up (j : Nat)
deriving DecidableEq, Repr

/-- The backward scan `j = i - 1; while j >= 0: ...` of `_create_group_tree`
(database.py:1019-1031), looking for the nearest `j` below `i` whose level is
smaller than `li`: raises (`error`) when that level differs by more than 1,
when `j` reaches 0 without a hit, or when `levels[j]` is out of range. -/
def scan_back (lv : List Nat) (li : Nat) : Nat → Except Unit Nat
  | 0 =>
    match lv[0]? with
    | none => .error ()
    | some lj =>
      if lj < li then (if li - lj ≠ 1 then .error () else .ok 0)
      else .error ()
  | j + 1 =>
    match lv[j + 1]? with
    | none => .error ()
    | some lj =>
      if lj < li then (if li - lj ≠ 1 then .error () else .ok (j + 1))
      else scan_back lv li j

/-- One iteration of the `for i in range(len(self.groups))` loop of
`_create_group_tree`: the parent reference assigned to group `i` (`levels[i]`
out of range is an `IndexError`).  When `i = 0` and `levels[0] ≠ 0` the
Python loop body assigns no parent at all (the `while` guard `j >= 0` fails
immediately); this is unreachable after the `levels[0] != 0` check and is
modelled as `ok none`. -/
def tree_parent_at (lv : List Nat) (i : Nat) : Except Unit (Option PRef) :=
  match lv[i]? with
  | none => .error ()
  | some li =>
    if li = 0 then .ok (some .root)
    else if i = 0 then .ok none
    else
      match scan_back lv li (i - 1) with
      | .error e => .error e
      | .ok j => .ok (some (.up j))

/-- The loop of `_create_group_tree` over `i = first, first+1, ...` for
`r` iterations, collecting the assigned parent references in order. -/
def tree_parents_count (lv : List Nat) : Nat → Nat → Except Unit (List (Option PRef))
  | 0, _ => .ok []
  | r + 1, i =>
    match tree_parent_at lv i with
    | .error e => .error e
    | .ok y =>
      match tree_parents_count lv r (i + 1) with
      | .error e => .error e
      | .ok ys => .ok (y :: ys)

/-- `KPDBv1._create_group_tree` restricted to its parent-assignment effect:
check `levels[0] != 0` (an `IndexError` on an empty list is also an error),
then assign a parent to each of the `n = len(self.groups)` flat-list entries.
The `root_group.children`/`index` bookkeeping and the entry attachment that
follow in the source do not affect the assigned parents. -/
def create_group_tree_parents (lv : List Nat) (n : Nat) :
    Except Unit (List (Option PRef)) :=
  match lv[0]? with
  | none => .error ()
  | some l0 => if l0 ≠ 0 then .error () else tree_parents_count lv n 0

theorem scan_back_ok (lv : List Nat) (li : Nat) :
    ∀ j r, scan_back lv li j = .ok r →
      r ≤ j ∧ (∃ lr, lv[r]? = some lr ∧ lr < li ∧ li - lr = 1)
        ∧ ∀ k, r < k → k ≤ j → ∃ lk, lv[k]? = some lk ∧ li ≤ lk := by
  intro j
  induction j with
  | zero =>
    intro r h
    unfold scan_back at h
    split at h
    · exact absurd h (by simp)
    · rename_i lj h0
      split at h
      · rename_i hlt
        split at h
        · exact absurd h (by simp)
        · rename_i hdiff
          cases h
          exact ⟨Nat.le_refl 0, ⟨lj, h0, hlt, by omega⟩, by omega⟩
      · exact absurd h (by simp)
  | succ j ih =>
    intro r h
    unfold scan_back at h
    split at h
    · exact absurd h (by simp)
    · rename_i lj h0
      split at h
      · rename_i hlt
        split at h
        · exact absurd h (by simp)
        · rename_i hdiff
          cases h
          refine ⟨Nat.le_refl _, ⟨lj, h0, hlt, by omega⟩, ?_⟩
          intro k hk1 hk2
          omega
      · rename_i hge
        obtain ⟨hr, hmid, hafter⟩ := ih r h
        refine ⟨by omega, hmid, ?_⟩
        intro k hk1 hk2
        rcases Nat.lt_or_ge k (j + 1) with hk | hk
        · exact hafter k hk1 (by omega)
        · have hkj : k = j + 1 := by omega
          subst hkj
          exact ⟨lj, h0, by omega⟩

theorem tree_parents_count_ok (lv : List Nat) :
    ∀ r i ps, tree_parents_count lv r i = .ok ps →
      ps.length = r ∧ ∀ t < r, ∃ y, tree_parent_at lv (i + t) = .ok y
        ∧ ps[t]? = some y := by
  intro r
  induction r with
  | zero =>
    intro i ps h
    cases h
    exact ⟨rfl, by omega⟩
  | succ r ih =>
    intro i ps h
    unfold tree_parents_count at h
    rcases h0 : tree_parent_at lv i with e | y <;> rw [h0] at h
    · exact absurd h (by simp)
    · rcases h1 : tree_parents_count lv r (i + 1) with e | ys <;> rw [h1] at h
      · exact absurd h (by simp)
      · cases h
        obtain ⟨hlen, hprops⟩ := ih (i + 1) ys h1
        refine ⟨by simp [hlen], ?_⟩
        intro t ht
        cases t with
        | zero => exact ⟨y, by simpa using h0, by simp⟩
        | succ t =>
          obtain ⟨y', hy', hget⟩ := hprops t (by omega)
          refine ⟨y', ?_, by simpa using hget⟩
          have e : i + (t + 1) = i + 1 + t := by omega
          rw [e]
          exact hy'

/-- An `Except Unit` value that is not `ok` is the unique error. -/
theorem except_unit_error {α : Type} (e : Except Unit α)
    (h : ∀ a, e ≠ .ok a) : e = .error () := by
  cases e with
  | error u => cases u; rfl
  | ok a => exact absurd rfl (h a)

/-- Success characterization of the tree builder: on `ok`, every index below
`n` got a level and a parent; level 0 means parent root, a positive level
means the parent is the nearest smaller-level index below, at level exactly
one less. -/
theorem create_group_tree_parents_ok (lv : List Nat) (n : Nat)
    (ps : List (Option PRef)) (h : create_group_tree_parents lv n = .ok ps) :
    ∀ i < n, ∃ li, lv[i]? = some li
      ∧ (li = 0 → ps[i]? = some (some .root))
      ∧ (li ≠ 0 → ∃ j lj, ps[i]? = some (some (.up j)) ∧ j < i
          ∧ lv[j]? = some lj ∧ lj < li ∧ li - lj = 1
          ∧ ∀ k, j < k → k < i → ∃ lk, lv[k]? = some lk ∧ li ≤ lk) := by
  unfold create_group_tree_parents at h
  split at h
  · exact absurd h (by simp)
  · rename_i l0 h0
    split at h
    · exact absurd h (by simp)
    · rename_i hl0
      have hl0z : l0 = 0 := by omega
      obtain ⟨hlen, hp⟩ := tree_parents_count_ok lv n 0 ps h
      intro i hi
      obtain ⟨y, hy, hget⟩ := hp i hi
      rw [Nat.zero_add] at hy
      unfold tree_parent_at at hy
      split at hy
      · exact absurd hy (by simp)
      · rename_i li hli
        refine ⟨li, hli, ?_, ?_⟩
        · intro hz
          rw [if_pos hz] at hy
          cases hy
          exact hget
        · intro hnz
          rw [if_neg hnz] at hy
          have hine : i ≠ 0 := by
            intro hi0
            subst hi0
            rw [h0] at hli
            cases hli
            exact hnz hl0z
          rw [if_neg hine] at hy
          rcases hs : scan_back lv li (i - 1) with e | j <;> rw [hs] at hy
          · exact absurd hy (by simp)
          · cases hy
            obtain ⟨hji, ⟨lj, hlj, hljlt, hdiff⟩, hafter⟩ := scan_back_ok lv li (i - 1) j hs
            refine ⟨j, lj, hget, by omega, hlj, hljlt, hdiff, ?_⟩
            intro k hk1 hk2
            exact hafter k hk1 (by omega)

/-! ### Body parsing on load (`KPDBv1.load`, database.py:212-312, and the
field codecs `_read_group_field`/`_read_entry_field`, database.py:883-970).

The phase modelled here starts after decryption and the contents-hash check:
it takes the decrypted plaintext, the ciphertext length (`load` bounds the
running offset by `len(crypted_content) + 124`) and the header counts, and
produces the `self.groups`/`self.entries` state.  Errors carry the state at
raise time, since `load` never resets `self.groups`/`self.entries` on any
path. -/

/-- `struct.unpack('<H', content[:2])`: `struct.error` when fewer than two
bytes remain. -/
def read_u16 (content : List Nat) : Except LoadErr Nat :=
  if content.length < 2 then .error .shortRead
  else .ok (content.getD 0 0 + 256 * content.getD 1 0)

/-- `struct.unpack('<I', content[:4])`: `struct.error` when fewer than four
bytes remain. -/
def read_u32 (content : List Nat) : Except LoadErr Nat :=
  if content.length < 4 then .error .shortRead
  else .ok (u32_at content 0)

/-- RFC 3629 UTF-8 validity (semantics of Python `bytes.decode('utf-8')`,
which raises `UnicodeDecodeError` on invalid input). -/
def utf8_valid : List Nat → Bool
  | [] => true
  | b :: rest =>
    if b < 0x80 then utf8_valid rest
    else if 0xC2 ≤ b ∧ b ≤ 0xDF then
      match rest with
      | c1 :: r => decide (0x80 ≤ c1 ∧ c1 ≤ 0xBF) && utf8_valid r
      | [] => false
    else if b = 0xE0 then
      match rest with
      | c1 :: c2 :: r =>
        decide (0xA0 ≤ c1 ∧ c1 ≤ 0xBF) && decide (0x80 ≤ c2 ∧ c2 ≤ 0xBF)
          && utf8_valid r
      | _ => false
    else if (0xE1 ≤ b ∧ b ≤ 0xEC) ∨ b = 0xEE ∨ b = 0xEF then
      match rest with
      | c1 :: c2 :: r =>
        decide (0x80 ≤ c1 ∧ c1 ≤ 0xBF) && decide (0x80 ≤ c2 ∧ c2 ≤ 0xBF)
          && utf8_valid r
      | _ => false
    else if b = 0xED then
      match rest with
      | c1 :: c2 :: r =>
        decide (0x80 ≤ c1 ∧ c1 ≤ 0x9F) && decide (0x80 ≤ c2 ∧ c2 ≤ 0xBF)
          && utf8_valid r
      | _ => false
    else if b = 0xF0 then
      match rest with
      | c1 :: c2 :: c3 :: r =>
        decide (0x90 ≤ c1 ∧ c1 ≤ 0xBF) && decide (0x80 ≤ c2 ∧ c2 ≤ 0xBF)
          && decide (0x80 ≤ c3 ∧ c3 ≤ 0xBF) && utf8_valid r
      | _ => false
    else if 0xF1 ≤ b ∧ b ≤ 0xF3 then
      match rest with
      | c1 :: c2 :: c3 :: r =>
        decide (0x80 ≤ c1 ∧ c1 ≤ 0xBF) && decide (0x80 ≤ c2 ∧ c2 ≤ 0xBF)
          && decide (0x80 ≤ c3 ∧ c3 ≤ 0xBF) && utf8_valid r
      | _ => false
    else if b = 0xF4 then
      match rest with
      | c1 :: c2 :: c3 :: r =>
        decide (0x80 ≤ c1 ∧ c1 ≤ 0x8F) && decide (0x80 ≤ c2 ∧ c2 ≤ 0xBF)
          && decide (0x80 ≤ c3 ∧ c3 ≤ 0xBF) && utf8_valid r
      | _ => false
    else false

/-- Modelled from the spec: the `v1Group` record of `kppy.groups` (the module
is not under `src/`); spec §3 lists id, title, image, the four timestamps,
level, flags, and the parent reference.  Text is kept as raw bytes (the group
title decode falls back to Latin-1, which never fails).  `parent` and
`entry_idxs` (owned entries, as indices) are filled by
`_create_group_tree`. -/
structure LGroup where
  id_ : Option Nat := none
  title : Option (List Nat) := none
  creation : Option DateT := none
  last_mod : Option DateT := none
  last_access : Option DateT := none
  expire : Option DateT := none
  image : Option Nat := none
  level : Option Nat := none
  flags : Option Nat := none
  parent : Option PRef := none
  entry_idxs : List Nat := []
deriving DecidableEq, Repr

/-- Modelled from the spec: the `v1Entry` record of `kppy.entries` (the
module is not under `src/`); spec §3 lists uuid, group id, image, the five
text fields, the four timestamps, and the binary attachment.  `group` (the
owning group, as a flat-list index) is filled by `_create_group_tree`. -/
structure LEntry where
  uuid : Option (List Nat) := none
  group_id : Option Nat := none
  image : Option Nat := none
  title : Option (List Nat) := none
  url : Option (List Nat) := none
  username : Option (List Nat) := none
  password : Option (List Nat) := none
  comment : Option (List Nat) := none
  binary_desc : Option (List Nat) := none
  binary : Option (List Nat) := none
  creation : Option DateT := none
  last_mod : Option DateT := none
  last_access : Option DateT := none
  expire : Option DateT := none
  group : Option Nat := none
deriving DecidableEq, Repr

/-- Read of a text payload `struct.unpack('<{n}s', content[:n])` with
`n = field_size - 1` (a `field_size` of 0 makes the format `'<-1s'`, a
`struct.error`, and a too-short buffer is a `struct.error` as well). -/
def read_text (field_size : Nat) (content : List Nat) :
    Except LoadErr (List Nat) :=
  if field_size = 0 ∨ content.length < field_size - 1 then .error .shortRead
  else .ok (content.take (field_size - 1))

/-- `KPDBv1._read_group_field` (database.py:883-920): dispatch on the field
type, updating the group under construction and the `levels` array; returns
`false` (no error) for an unknown field type. -/
def read_group_field (group : LGroup) (levels : List Nat)
    (field_type field_size : Nat) (content : List Nat) :
    Except LoadErr (LGroup × List Nat × Bool) :=
  if field_type = 0x0000 then .ok (group, levels, true)
  else if field_type = 0x0001 then
    (read_u32 content).map (fun v => ({ group with id_ := some v }, levels, true))
  else if field_type = 0x0002 then
    (read_text field_size content).map
      (fun t => ({ group with title := some t }, levels, true))
  else if field_type = 0x0003 then
    (get_date content).map (fun t => ({ group with creation := some t }, levels, true))
  else if field_type = 0x0004 then
    (get_date content).map (fun t => ({ group with last_mod := some t }, levels, true))
  else if field_type = 0x0005 then
    (get_date content).map (fun t => ({ group with last_access := some t }, levels, true))
  else if field_type = 0x0006 then
    (get_date content).map (fun t => ({ group with expire := some t }, levels, true))
  else if field_type = 0x0007 then
    (read_u32 content).map (fun v => ({ group with image := some v }, levels, true))
  else if field_type = 0x0008 then
    (read_u16 content).map
      (fun v => ({ group with level := some v }, levels ++ [v], true))
  else if field_type = 0x0009 then
    (read_u32 content).map (fun v => ({ group with flags := some v }, levels, true))
  else if field_type = 0xFFFF then .ok (group, levels, true)
  else .ok (group, levels, false)

/-- A UTF-8-decoded text payload for entry fields (no Latin-1 fallback in
`_read_entry_field`: invalid UTF-8 raises `UnicodeDecodeError`). -/
def read_utf8_text (field_size : Nat) (content : List Nat) :
    Except LoadErr (List Nat) :=
  match read_text field_size content with
  | .error e => .error e
  | .ok t => if utf8_valid t then .ok t else .error .badUtf8

/-- `KPDBv1._read_entry_field` (database.py:922-970): dispatch on the field
type, updating the entry under construction; returns `false` (no error) for
an unknown field type.  `uuid` and `binary` are plain slices, which Python
never fails on. -/
def read_entry_field (entry : LEntry) (field_type field_size : Nat)
    (content : List Nat) : Except LoadErr (LEntry × Bool) :=
  if field_type = 0x0000 then .ok (entry, true)
  else if field_type = 0x0001 then .ok ({ entry with uuid := some (content.take 16) }, true)
  else if field_type = 0x0002 then
    (read_u32 content).map (fun v => ({ entry with group_id := some v }, true))
  else if field_type = 0x0003 then
    (read_u32 content).map (fun v => ({ entry with image := some v }, true))
  else if field_type = 0x0004 then
    (read_utf8_text field_size content).map (fun t => ({ entry with title := some t }, true))
  else if field_type = 0x0005 then
    (read_utf8_text field_size content).map (fun t => ({ entry with url := some t }, true))
  else if field_type = 0x0006 then
    (read_utf8_text field_size content).map (fun t => ({ entry with username := some t }, true))
  else if field_type = 0x0007 then
    (read_utf8_text field_size content).map (fun t => ({ entry with password := some t }, true))
  else if field_type = 0x0008 then
    (read_utf8_text field_size content).map (fun t => ({ entry with comment := some t }, true))
  else if field_type = 0x0009 then
    (get_date content).map (fun t => ({ entry with creation := some t }, true))
  else if field_type = 0x000A then
    (get_date content).map (fun t => ({ entry with last_mod := some t }, true))
  else if field_type = 0x000B then
    (get_date content).map (fun t => ({ entry with last_access := some t }, true))
  else if field_type = 0x000C then
    (get_date content).map (fun t => ({ entry with expire := some t }, true))
  else if field_type = 0x000D then
    (read_utf8_text field_size content).map
      (fun t => ({ entry with binary_desc := some t }, true))
  else if field_type = 0x000E then
    .ok ({ entry with binary := some (content.take field_size) }, true)
  else if field_type = 0xFFFF then .ok (entry, true)
  else .ok (entry, false)

/-- The group loop of `KPDBv1.load` (database.py:218-255):
`while cur_group < num_groups`, read field type and size (each followed by an
offset-bound check against `len(crypted_content) + 124` = `climit`), read the
field, push the group on a terminator, and advance past the payload (the
group loop, unlike the entry loop, does not add `field_size` to `pos`).  The
error carries the `self.groups` state at raise time.  `fuel` bounds the
number of iterations; `outOfFuel` marks a run that has not finished within
the budget, not a Python exception. -/
def load_groups (num_groups climit : Nat) :
    Nat → List Nat → Nat → Nat → LGroup → List Nat → List LGroup →
    Except (LoadErr × List LGroup) (List LGroup × List Nat × List Nat × Nat)
  | 0, content, pos, cur_group, _, levels, gs =>
    if cur_group < num_groups then .error (.outOfFuel, gs)
    else .ok (gs, levels, content, pos)
  | fuel + 1, content, pos, cur_group, group, levels, gs =>
    if cur_group < num_groups then
        match read_u16 content with
        | .error e => .error (e, gs)
        | .ok field_type =>
          let content := content.drop 2
          let pos := pos + 2
          if climit ≤ pos then .error (.offsetRange, gs)
          else
            match read_u32 content with
            | .error e => .error (e, gs)
            | .ok field_size =>
              let content := content.drop 4
              let pos := pos + 4
              if climit ≤ pos then .error (.offsetRange, gs)
              else
                match read_group_field group levels field_type field_size content with
                | .error e => .error (e, gs)
                | .ok (group, levels, b_ret) =>
                  let push := field_type = 0xFFFF ∧ b_ret = true
                  let gs := if push then gs ++ [group] else gs
                  let group := if push then {} else group
                  let cur_group := if push then cur_group + 1 else cur_group
                  let content := content.drop field_size
                  if climit ≤ pos then .error (.offsetRange, gs)
                  else load_groups num_groups climit fuel content pos cur_group
                      group levels gs
    else .ok (gs, levels, content, pos)

/-- The entry loop of `KPDBv1.load` (database.py:258-299): like the group
loop but `pos` also advances by `field_size`, and on a terminator the entry
is appended and then checked: a missing `group_id` raises
`KPError('Found entry without group!')` (the appended entry stays in
`self.entries`). -/
def load_entries (num_entries climit : Nat) :
    Nat → List Nat → Nat → Nat → LEntry → List LEntry →
    Except (LoadErr × List LEntry) (List LEntry × List Nat × Nat)
  | 0, content, pos, cur_entry, _, es =>
    if cur_entry < num_entries then .error (.outOfFuel, es)
    else .ok (es, content, pos)
  | fuel + 1, content, pos, cur_entry, entry, es =>
    if cur_entry < num_entries then
        match read_u16 content with
        | .error e => .error (e, es)
        | .ok field_type =>
          let content := content.drop 2
          let pos := pos + 2
          if climit ≤ pos then .error (.offsetRange, es)
          else
            match read_u32 content with
            | .error e => .error (e, es)
            | .ok field_size =>
              let content := content.drop 4
              let pos := pos + 4
              if climit ≤ pos then .error (.offsetRange, es)
              else
                match read_entry_field entry field_type field_size content with
                | .error e => .error (e, es)
                | .ok (entry, b_ret) =>
                  let push := field_type = 0xFFFF ∧ b_ret = true
                  let es := if push then es ++ [entry] else es
                  if push ∧ entry.group_id = none then .error (.orphan, es)
                  else
                    let entry := if push then {} else entry
                    let cur_entry := if push then cur_entry + 1 else cur_entry
                    let content := content.drop field_size
                    let pos := pos + field_size
                    if climit ≤ pos then .error (.offsetRange, es)
                    else load_entries num_entries climit fuel content pos
                        cur_entry entry es
    else .ok (es, content, pos)

/-- The entry-attachment loop of `_create_group_tree`
(database.py:1033-1040): for each entry and each group, on
`entries[e].group_id == groups[g].id_` append the entry to the group's entry
list and point the entry at the group (the comparison is between two
possibly-`None` Python values, so two `None`s also match). -/
def attach_entries (gs : List LGroup) (es : List LEntry) :
    List LGroup × List LEntry :=
  (List.range es.length).foldl
    (fun st e =>
      (List.range gs.length).foldl
        (fun st g =>
          match st.2[e]?, st.1[g]? with
          | some er, some gr =>
            if er.group_id = gr.id_ then
              (st.1.set g { gr with entry_idxs := gr.entry_idxs ++ [e] },
                st.2.set e { er with group := some g })
            else st
          | _, _ => st)
        st)
    (gs, es)

/-- `KPDBv1._create_group_tree` (database.py:1006-1040) on the load state:
assign parents from the level stream (any failure there is the
`KPError('Invalid group tree')`; an out-of-range level index is an
`IndexError`, collapsed onto the same error kind here), then attach entries
to groups by id. -/
def create_group_tree (gs : List LGroup) (es : List LEntry)
    (levels : List Nat) : Except LoadErr (List LGroup × List LEntry) :=
  match create_group_tree_parents levels gs.length with
  | .error _ => .error .invalidTree
  | .ok parents =>
    let gs := gs.mapIdx (fun i g => { g with parent := (parents[i]?).getD none })
    .ok (attach_entries gs es)

/-- The body phase of `KPDBv1.load` (database.py:212-312): parse
`num_groups` groups, then `num_entries` entries, then build the tree and
attach entries.  `crypted_len` is the ciphertext length, which bounds the
running offset (`pos >= len(crypted_content) + 124` raises).  On error the
result carries the `self.groups`/`self.entries` state at raise time. -/
def load_body (fuel : Nat) (decrypted : List Nat)
    (crypted_len num_groups num_entries : Nat) :
    Except (LoadErr × List LGroup × List LEntry) (List LGroup × List LEntry) :=
  let climit := crypted_len + 124
  match load_groups num_groups climit fuel decrypted 0 0 {} [] [] with
  | .error (e, gs) => .error (e, gs, [])
  | .ok (gs, levels, content, pos) =>
    match load_entries num_entries climit fuel content pos 0 {} [] with
    | .error (e, es) => .error (e, gs, es)
    | .ok (es, _, _) =>
      match create_group_tree gs es levels with
      | .error e => .error (e, gs, es)
      | .ok (gs, es) => .ok (gs, es)

theorem read_u16_pack (n : Nat) (r : List Nat) (h : n < 65536) :
    read_u16 (pack_u16 n ++ r) = .ok n := by
  have hl : (pack_u16 n ++ r).length = 2 + r.length := by simp [pack_u16]; omega
  unfold read_u16
  rw [if_neg (by omega)]
  simp [pack_u16, List.getD]
  omega

theorem read_u32_pack (n : Nat) (r : List Nat) (h : n < 4294967296) :
    read_u32 (pack_u32 n ++ r) = .ok n := by
  have hl : (pack_u32 n ++ r).length = 4 + r.length := by simp [pack_u32]; omega
  unfold read_u32
  rw [if_neg (by omega)]
  simp [pack_u32, u32_at, List.getD]
  omega

theorem drop_two_pack_u16 (n : Nat) (r : List Nat) :
    (pack_u16 n ++ r).drop 2 = r := rfl

theorem drop_four_pack_u32 (n : Nat) (r : List Nat) :
    (pack_u32 n ++ r).drop 4 = r := rfl

/-- The group field types `_read_group_field` knows (including the
terminator). -/
def known_group_types : List Nat :=
  [0x0000, 0x0001, 0x0002, 0x0003, 0x0004, 0x0005, 0x0006, 0x0007, 0x0008,
    0x0009, 0xFFFF]

/-- The entry field types `_read_entry_field` knows (including the
terminator). -/
def known_entry_types : List Nat :=
  [0x0000, 0x0001, 0x0002, 0x0003, 0x0004, 0x0005, 0x0006, 0x0007, 0x0008,
    0x0009, 0x000A, 0x000B, 0x000C, 0x000D, 0x000E, 0xFFFF]

theorem read_group_field_unknown (group : LGroup) (levels : List Nat)
    (ft fs : Nat) (content : List Nat) (h : ft ∉ known_group_types) :
    read_group_field group levels ft fs content = .ok (group, levels, false) := by
  simp only [known_group_types, List.mem_cons, List.not_mem_nil, or_false,
    not_or] at h
  obtain ⟨h0, h1, h2, h3, h4, h5, h6, h7, h8, h9, hf⟩ := h
  unfold read_group_field
  rw [if_neg h0, if_neg h1, if_neg h2, if_neg h3, if_neg h4, if_neg h5,
    if_neg h6, if_neg h7, if_neg h8, if_neg h9, if_neg hf]

theorem read_entry_field_unknown (entry : LEntry) (ft fs : Nat)
    (content : List Nat) (h : ft ∉ known_entry_types) :
    read_entry_field entry ft fs content = .ok (entry, false) := by
  simp only [known_entry_types, List.mem_cons, List.not_mem_nil, or_false,
    not_or] at h
  obtain ⟨h0, h1, h2, h3, h4, h5, h6, h7, h8, h9, hA, hB, hC, hD, hE, hf⟩ := h
  unfold read_entry_field
  rw [if_neg h0, if_neg h1, if_neg h2, if_neg h3, if_neg h4, if_neg h5,
    if_neg h6, if_neg h7, if_neg h8, if_neg h9, if_neg hA, if_neg hB,
    if_neg hC, if_neg hD, if_neg hE, if_neg hf]

theorem foldl_inv {α β : Type} (P : β → Prop) (f : β → α → β)
    (hf : ∀ b a, P b → P (f b a)) :
    ∀ (l : List α) (b : β), P b → P (l.foldl f b) := by
  intro l
  induction l with
  | nil => intro b hb; exact hb
  | cons a l ih => intro b hb; exact ih _ (hf b a hb)

/-- The entry-attachment loop sets only the `group` back-reference: every
entry in the result still has whatever `group_id` presence it had. -/
theorem attach_entries_group_id (gs : List LGroup) (es : List LEntry)
    (hP : ∀ en ∈ es, en.group_id ≠ none) :
    ∀ en ∈ (attach_entries gs es).2, en.group_id ≠ none := by
  unfold attach_entries
  refine foldl_inv
    (fun st : List LGroup × List LEntry => ∀ en ∈ st.2, en.group_id ≠ none)
    _ ?_ _ _ hP
  intro st e hst
  refine foldl_inv
    (fun st : List LGroup × List LEntry => ∀ en ∈ st.2, en.group_id ≠ none)
    _ ?_ _ _ hst
  intro st2 g hst2
  rcases h1 : st2.2[e]? with _ | er <;> rcases h2 : st2.1[g]? with _ | gr
    <;> simp only [h1, h2]
  · exact hst2
  · exact hst2
  · exact hst2
  · split
    · intro en hen
      rcases List.mem_or_eq_of_mem_set hen with hin | heq
      · exact hst2 en hin
      · subst heq
        exact hst2 er (List.getElem?_mem h1)
    · exact hst2

/-- Along every successful run of the entry loop, each appended entry passed
the `group_id is None` terminator check, so every entry in the result has a
`group_id` field (given the accumulator did). -/
theorem load_entries_group_id (ne climit : Nat) :
    ∀ (fuel : Nat) (content : List Nat) (pos cur : Nat) (entry : LEntry)
      (es es' : List LEntry) (c' : List Nat) (p' : Nat),
      (∀ en ∈ es, en.group_id ≠ none) →
      load_entries ne climit fuel content pos cur entry es = .ok (es', c', p') →
      ∀ en ∈ es', en.group_id ≠ none := by
  intro fuel
  induction fuel with
  | zero =>
    intro content pos cur entry es es' c' p' hP h
    unfold load_entries at h
    split at h
    · simp at h
    · simp only [Except.ok.injEq, Prod.mk.injEq] at h
      obtain ⟨h1, _, _⟩ := h
      subst h1
      exact hP
  | succ fuel ih =>
    intro content pos cur entry es es' c' p' hP h
    unfold load_entries at h
    split at h
    case isFalse =>
      simp only [Except.ok.injEq, Prod.mk.injEq] at h
      obtain ⟨h1, _, _⟩ := h
      subst h1
      exact hP
    case isTrue hcur =>
      dsimp only at h
      split at h
      · simp at h
      · rename_i ft hft
        split at h
        · simp at h
        · split at h
          · simp at h
          · rename_i fs hfs
            split at h
            · simp at h
            · split at h
              · simp at h
              · rename_i pr entry2 bret heq
                split at h
                · simp at h
                · rename_i horphan
                  by_cases hpush : ft = 0xFFFF ∧ bret = true
                  · simp only [if_pos hpush] at h
                    split at h
                    · simp at h
                    · refine ih _ _ _ _ _ _ _ _ ?_ h
                      intro en hen
                      rcases List.mem_append.mp hen with hin | hone
                      · exact hP en hin
                      · rw [List.mem_singleton] at hone
                        subst hone
                        intro hnone
                        exact horphan ⟨hpush, hnone⟩
                  · simp only [if_neg hpush] at h
                    split at h
                    · simp at h
                    · exact ih _ _ _ _ _ _ _ _ hP h

/-- `_create_group_tree` (parents + attachment) does not change which
entries carry a `group_id` field. -/
theorem create_group_tree_group_id (gs : List LGroup) (es : List LEntry)
    (levels : List Nat) (gs' : List LGroup) (es' : List LEntry)
    (hP : ∀ en ∈ es, en.group_id ≠ none)
    (h : create_group_tree gs es levels = .ok (gs', es')) :
    ∀ en ∈ es', en.group_id ≠ none := by
  unfold create_group_tree at h
  split at h
  · simp at h
  · rename_i ys hys
    dsimp only at h
    simp only [Except.ok.injEq] at h
    intro en hen
    have hat := attach_entries_group_id
      (List.mapIdx (fun i g => { g with parent := (ys[i]?).getD none }) gs)
      es hP
    rw [h] at hat
    exact hat en hen

/-! ### Mutation operations (`KPDBv1.create_group`, `remove_group`,
`move_group`, `_move_group_helper`, `create_entry`, `remove_entry`,
`move_entry`, database.py:514-800).

Python objects live in an arena keyed by identity (`Nat` keys; key 0 is
`self.root_group`); `is`-comparison and `list.remove`/`index` (which compare
by default object identity here) become key equality.  Objects are never
garbage-collected: removal operations only edit the membership lists.
Counters are `Int` (Python ints may go negative).  `datetime.now()` and
`set_expire` touch only timestamp attributes, which no modelled operation
reads, and are omitted. -/

/-- Modelled from the spec: a `v1Group` object (module `kppy.groups` is not
under `src/`): id, title, image, depth level, parent reference, ordered
child list, ordered owned-entry list (spec §3). -/
structure MGroup where
  id_ : Int
  title : String
  image : Int
  level : Int
  parent : Nat
  children : List Nat
  entries : List Nat
deriving DecidableEq, Repr

/-- Modelled from the spec: a `v1Entry` object (module `kppy.entries` is not
under `src/`): owning group id and owning group back-reference (spec §3);
the credential payload fields are not read by any modelled operation. -/
structure MEntry where
  group_id : Int
  group : Nat
deriving DecidableEq, Repr

/-- The mutable `KPDBv1` state seen by the mutation operations: the group
and entry arenas, `self.groups`/`self.entries` (as key lists),
`self.root_group.children`, and the `_num_groups`/`_num_entries`
counters.  `fresh` is the next unused arena key (object allocation). -/
structure MDB where
  recs : List (Nat × MGroup)
  erecs : List (Nat × MEntry)
  flat : List Nat
  eflat : List Nat
  rootChildren : List Nat
  numGroups : Int
  numEntries : Int
  fresh : Nat
deriving DecidableEq, Repr

def getRec (db : MDB) (k : Nat) : Option MGroup := db.recs.lookup k

def getERec (db : MDB) (k : Nat) : Option MEntry := db.erecs.lookup k

def setRec (db : MDB) (k : Nat) (g : MGroup) : MDB :=
  { db with recs := db.recs.map (fun p => if p.1 = k then (k, g) else p) }

def setERec (db : MDB) (k : Nat) (e : MEntry) : MDB :=
  { db with erecs := db.erecs.map (fun p => if p.1 = k then (k, e) else p) }

/-- Python `list.remove(x)`: drop the first occurrence, `ValueError` when
absent. -/
def py_remove (l : List Nat) (x : Nat) : Option (List Nat) :=
  if x ∈ l then some (l.erase x) else none

/-- Python `list.index(x)`: first index, `ValueError` when absent. -/
def py_index (l : List Nat) (x : Nat) : Option Nat :=
  if x ∈ l then some (l.indexOf x) else none

/-- Python `list.insert(i, x)` (never fails; clamps the index). -/
def py_insert (l : List Nat) (i : Nat) (x : Nat) : List Nat :=
  l.take i ++ x :: l.drop i

/-- The `children` list of a group key, with key 0 denoting
`self.root_group`. -/
def children_of (db : MDB) (k : Nat) : Option (List Nat) :=
  if k = 0 then some db.rootChildren else (getRec db k).map (·.children)

def set_children (db : MDB) (k : Nat) (cs : List Nat) : Option MDB :=
  if k = 0 then some { db with rootChildren := cs }
  else
    match getRec db k with
    | none => none
    | some g => some (setRec db k { g with children := cs })

/-- `KPDBv1.create_group` (database.py:514-563): compute the fresh id as
`max(existing id) + 1` (via the source's fold), then append under the root
or insert directly behind the given parent; `_num_groups += 1`. -/
def create_group (db : MDB) (title : String) (parent : Option Nat)
    (image : Int) : Option MDB :=
  if image < 1 then none
  else
    let id_ := db.flat.foldl
      (fun acc k =>
        match getRec db k with
        | some g => if g.id_ ≥ acc then g.id_ + 1 else acc
        | none => acc) 1
    let k := db.fresh
    let g0 : MGroup :=
      { id_ := id_, title := title, image := image,
        level := 0, parent := 0, children := [], entries := [] }
    match parent with
    | none =>
      some { db with
        recs := db.recs ++ [(k, g0)],
        rootChildren := db.rootChildren ++ [k],
        flat := db.flat ++ [k],
        fresh := k + 1,
        numGroups := db.numGroups + 1 }
    | some p =>
      if p ∈ db.flat then
        match getRec db p with
        | none => none
        | some prec =>
          match py_index db.flat p with
          | none => none
          | some idx =>
            let db1 := setRec db p { prec with children := prec.children ++ [k] }
            let g : MGroup := { g0 with parent := p, level := prec.level + 1 }
            some { db1 with
              recs := db1.recs ++ [(k, g)],
              flat := py_insert db1.flat (idx + 1) k,
              fresh := k + 1,
              numGroups := db1.numGroups + 1 }
      else none

/-- `KPDBv1.remove_entry` (database.py:735-750). -/
def remove_entry (db : MDB) (ek : Nat) : Option MDB :=
  if ek ∈ db.eflat then
    match getERec db ek with
    | none => none
    | some er =>
      match getRec db er.group with
      | none => none
      | some grec =>
        match py_remove grec.entries ek with
        | none => none
        | some cs =>
          let db1 := setRec db er.group { grec with entries := cs }
          match py_remove db1.eflat ek with
          | none => none
          | some fl =>
            some { db1 with eflat := fl, numEntries := db1.numEntries - 1 }
  else none

/-- `KPDBv1.remove_group` (database.py:565-597): remove the group from its
parent's children and from the flat list, decrement the counter, then
cascade into the saved children and entries.  `fuel` bounds the recursion
depth. -/
def remove_group (fuel : Nat) (db : MDB) (gk : Nat) : Option MDB :=
  match fuel with
  | 0 => none
  | fuel + 1 =>
    if gk ∈ db.flat then
      match getRec db gk with
      | none => none
      | some grec =>
        match children_of db grec.parent with
        | none => none
        | some pcs =>
          match py_remove pcs gk with
          | none => none
          | some pcs2 =>
            match set_children db grec.parent pcs2 with
            | none => none
            | some db1 =>
              match py_remove db1.flat gk with
              | none => none
              | some fl =>
                let db2 :=
                  { db1 with flat := fl, numGroups := db1.numGroups - 1 }
                match grec.children.foldlM
                    (fun db c => remove_group fuel db c) db2 with
                | none => none
                | some db3 =>
                  grec.entries.foldlM (fun db e => remove_entry db e) db3
    else none

/-- `KPDBv1.create_entry` (database.py:682-733): validate image, group
membership and the calendar date (February capped at 28 unconditionally),
then append to `self.entries` and the group's entry list;
`_num_entries += 1`. -/
def create_entry (db : MDB) (gk : Nat) (image : Int)
    (y mon d h mi s : Int) : Option MDB :=
  if image < 0 then none
  else if gk ∈ db.flat then
    if y > 9999 ∨ y < 1 ∨ mon > 12 ∨ mon < 1 ∨ d > 31 ∨ d < 1 ∨ h > 23 ∨
        h < 0 ∨ mi > 59 ∨ mi < 0 ∨ s > 59 ∨ s < 0 then none
    else if ((mon = 1 ∨ mon = 3 ∨ mon = 5 ∨ mon = 7 ∨ mon = 8 ∨ mon = 10 ∨
          mon = 12) ∧ d > 31) ∨
        ((mon = 4 ∨ mon = 6 ∨ mon = 9 ∨ mon = 11) ∧ d > 30) ∨
        (mon = 2 ∧ d > 28) then none
    else
      match getRec db gk with
      | none => none
      | some grec =>
        let ek := db.fresh
        let er : MEntry := { group_id := grec.id_, group := gk }
        let db1 := setRec db gk { grec with entries := grec.entries ++ [ek] }
        some { db1 with
          erecs := db1.erecs ++ [(ek, er)],
          eflat := db1.eflat ++ [ek],
          fresh := ek + 1,
          numEntries := db1.numEntries + 1 }
  else none

/-- `KPDBv1.move_entry` (database.py:752-771). -/
def move_entry (db : MDB) (ek gk : Nat) : Option MDB :=
  if ek ∈ db.eflat then
    if gk ∈ db.flat then
      match getERec db ek with
      | none => none
      | some er =>
        match getRec db er.group with
        | none => none
        | some og =>
          match py_remove og.entries ek with
          | none => none
          | some cs =>
            let db1 := setRec db er.group { og with entries := cs }
            match getRec db1 gk with
            | none => none
            | some grec =>
              let db2 := setRec db1 gk
                { grec with entries := grec.entries ++ [ek] }
              some (setERec db2 ek { group_id := grec.id_, group := gk })
    else none
  else none

mutual

/-- `KPDBv1._move_group_helper` (database.py:672-680): for each child of the
group, pull it out of the flat list and re-insert it right behind the group,
bump its level, and recurse into its own children.  `fuel` bounds the
recursion depth. -/
def move_group_helper (fuel : Nat) (db : MDB) (gk : Nat) : Option MDB :=
  match fuel with
  | 0 => none
  | fuel + 1 =>
    match getRec db gk with
    | none => none
    | some grec =>
      grec.children.foldlM (fun db c => move_group_step fuel db gk c) db
termination_by fuel * 2

/-- One iteration of the `for i in group.children` loop of
`_move_group_helper`, for child `c` of group `gk`. -/
def move_group_step (fuel : Nat) (db : MDB) (gk c : Nat) : Option MDB :=
  match py_remove db.flat c with
  | none => none
  | some fl =>
    let db1 := { db with flat := fl }
    match getRec db1 gk with
    | none => none
    | some g =>
      match getRec db1 c with
      | none => none
      | some crec =>
        let db2 := setRec db1 c { crec with level := g.level + 1 }
        match py_index db2.flat gk with
        | none => none
        | some idx =>
          let db3 := { db2 with flat := py_insert db2.flat (idx + 1) c }
          match getRec db3 c with
          | none => none
          | some crec2 =>
            if crec2.children ≠ [] then move_group_helper fuel db3 c
            else some db3
termination_by fuel * 2 + 1

end

/-- `KPDBv1.move_group` (database.py:599-637): the only rejected parent
value is the group itself (`group is parent`); then the group is unhooked
from the flat list and its old parent, re-parented, re-inserted behind the
new parent's last child (or the parent itself), its level recomputed, and
its subtree re-linked by `_move_group_helper`. -/
def move_group (fuel : Nat) (db : MDB) (gk : Nat) (parent : Option Nat) :
    Option MDB :=
  if parent = some gk then none
  else
    let pk := parent.getD 0
    if gk ∈ db.flat then
      match getRec db gk with
      | none => none
      | some grec =>
        match py_remove db.flat gk with
        | none => none
        | some fl =>
          let db1 := { db with flat := fl }
          match children_of db1 grec.parent with
          | none => none
          | some pcs =>
            match py_remove pcs gk with
            | none => none
            | some pcs2 =>
              match set_children db1 grec.parent pcs2 with
              | none => none
              | some db2 =>
                match getRec db2 gk with
                | none => none
                | some grec2 =>
                  let db3 := setRec db2 gk { grec2 with parent := pk }
                  match children_of db3 pk with
                  | none => none
                  | some newpcs =>
                    match
                      if newpcs ≠ [] then
                        match newpcs.getLast?, db3.flat.getLast? with
                        | some lastc, some lastf =>
                          if lastc = lastf then
                            some { db3 with flat := db3.flat ++ [gk] }
                          else
                            match py_index db3.flat lastc with
                            | none => none
                            | some idx =>
                              some { db3 with
                                flat := py_insert db3.flat (idx + 1) gk }
                        | _, _ => none
                      else
                        match py_index db3.flat pk with
                        | none => none
                        | some idx =>
                          some { db3 with
                            flat := py_insert db3.flat (idx + 1) gk }
                    with
                    | none => none
                    | some db4 =>
                      match children_of db4 pk with
                      | none => none
                      | some pcs3 =>
                        match set_children db4 pk (pcs3 ++ [gk]) with
                        | none => none
                        | some db5 =>
                          match
                            if pk = 0 then
                              match getRec db5 gk with
                              | none => none
                              | some g3 =>
                                some (setRec db5 gk { g3 with level := 0 })
                            else
                              match getRec db5 pk, getRec db5 gk with
                              | some prec, some g3 =>
                                some (setRec db5 gk
                                  { g3 with level := prec.level + 1 })
                              | _, _ => none
                          with
                          | none => none
                          | some db6 =>
                            match getRec db6 gk with
                            | none => none
                            | some g4 =>
                              if g4.children ≠ [] then
                                move_group_helper fuel db6 gk
                              else some db6
    else none

/-- One facade mutation operation and its arguments. -/
inductive MOp where
  | cg (title : String) (parent : Option Nat) (image : Int)
  | rg (g : Nat)
  | ce (g : Nat) (image : Int) (y mon d h mi s : Int)
  | re (e : Nat)
  | mg (g : Nat) (parent : Option Nat)
  | me (e : Nat) (g : Nat)
deriving DecidableEq, Repr

def apply_op (fuel : Nat) (db : MDB) : MOp → Option MDB
  | .cg t p i => create_group db t p i
  | .rg g => remove_group fuel db g
  | .ce g i y mon d h mi s => create_entry db g i y mon d h mi s
  | .re e => remove_entry db e
  | .mg g p => move_group fuel db g p
  | .me e g => move_entry db e g

/-- Apply a sequence of operations (each with its own recursion budget);
`none` as soon as one of them fails. -/
def apply_ops (db : MDB) : List (Nat × MOp) → Option MDB
  | [] => some db
  | (fuel, op) :: rest =>
    match apply_op fuel db op with
    | none => none
    | some db1 => apply_ops db1 rest

/-- Invariant 4 of the spec: the stored counters match the collections. -/
def counters_ok (db : MDB) : Prop :=
  db.numGroups = (db.flat.length : Int)
    ∧ db.numEntries = (db.eflat.length : Int)

instance (db : MDB) : Decidable (counters_ok db) := by
  unfold counters_ok
  infer_instance

theorem py_remove_length (l : List Nat) (x : Nat) (l' : List Nat)
    (h : py_remove l x = some l') : l'.length + 1 = l.length := by
  unfold py_remove at h
  split at h
  · rename_i hmem
    cases h
    have h1 := List.length_erase_of_mem hmem
    have h2 := List.length_pos_of_mem hmem
    omega
  · simp at h

theorem py_insert_length (l : List Nat) (i x : Nat) :
    (py_insert l i x).length = l.length + 1 := by
  unfold py_insert
  simp [List.length_take, List.length_drop]
  omega

theorem foldlM_option_pres {α β : Type} (P : β → Prop) (f : β → α → Option β)
    (hf : ∀ b a b', f b a = some b' → P b → P b') :
    ∀ (l : List α) (b b' : β), List.foldlM f b l = some b' → P b → P b' := by
  intro l
  induction l with
  | nil =>
    intro b b' h hb
    simp only [List.foldlM_nil, Option.pure_def, Option.some.injEq] at h
    rw [← h]
    exact hb
  | cons a l ih =>
    intro b b' h hb
    rw [List.foldlM_cons] at h
    rcases hfa : f b a with _ | b2 <;> rw [hfa] at h
    · simp at h
    · exact ih b2 b' h (hf b a b2 hfa hb)

theorem set_children_parts (db : MDB) (k : Nat) (cs : List Nat) (db' : MDB)
    (h : set_children db k cs = some db') :
    db'.flat = db.flat ∧ db'.eflat = db.eflat ∧ db'.numGroups = db.numGroups
      ∧ db'.numEntries = db.numEntries := by
  unfold set_children at h
  split at h
  · cases h
    exact ⟨rfl, rfl, rfl, rfl⟩
  · split at h
    · simp at h
    · cases h
      exact ⟨rfl, rfl, rfl, rfl⟩

theorem create_group_counters (db : MDB) (t : String) (p : Option Nat)
    (im : Int) (db' : MDB) (h : create_group db t p im = some db')
    (hc : counters_ok db) : counters_ok db' := by
  obtain ⟨hg, he⟩ := hc
  unfold create_group at h
  split at h
  case isTrue => simp at h
  case isFalse =>
  dsimp only at h
  split at h
  · -- parent is None: append at the end
    simp only [Option.some.injEq] at h
    subst h
    constructor
    · show db.numGroups + 1 = ((db.flat ++ [db.fresh]).length : Int)
      simp only [List.length_append, List.length_cons, List.length_nil]
      push_cast
      omega
    · exact he
  · -- parent given: insert right behind it
    split at h
    case isFalse => simp at h
    case isTrue =>
    split at h
    · simp at h
    rename_i prec hprec
    split at h
    · simp at h
    rename_i idx hidx
    simp only [Option.some.injEq] at h
    subst h
    constructor
    · show db.numGroups + 1
        = ((py_insert db.flat (idx + 1) db.fresh).length : Int)
      rw [py_insert_length]
      push_cast
      omega
    · exact he

theorem remove_entry_counters (db : MDB) (ek : Nat) (db' : MDB)
    (h : remove_entry db ek = some db') (hc : counters_ok db) :
    counters_ok db' := by
  obtain ⟨hg, he⟩ := hc
  unfold remove_entry at h
  split at h
  case isFalse => simp at h
  case isTrue hmem =>
  split at h
  · simp at h
  rename_i er her
  split at h
  · simp at h
  rename_i grec hgrec
  split at h
  · simp at h
  rename_i cs hcs
  dsimp only at h
  split at h
  · simp at h
  rename_i fl hfl
  simp only [Option.some.injEq] at h
  subst h
  have hlen := py_remove_length _ _ _ hfl
  constructor
  · exact hg
  · show db.numEntries - 1 = (fl.length : Int)
    have hsame : (setRec db er.group { grec with entries := cs }).eflat
        = db.eflat := rfl
    rw [hsame] at hlen
    omega

theorem create_entry_counters (db : MDB) (gk : Nat) (im y mon d h mi s : Int)
    (db' : MDB) (hh : create_entry db gk im y mon d h mi s = some db')
    (hc : counters_ok db) : counters_ok db' := by
  obtain ⟨hg, he⟩ := hc
  unfold create_entry at hh
  split at hh
  case isTrue => simp at hh
  case isFalse =>
  split at hh
  case isFalse => simp at hh
  case isTrue =>
  split at hh
  case isTrue => simp at hh
  case isFalse =>
  split at hh
  case isTrue => simp at hh
  case isFalse =>
  split at hh
  · simp at hh
  rename_i grec hgrec
  simp only [Option.some.injEq] at hh
  subst hh
  constructor
  · exact hg
  · show db.numEntries + 1 = ((db.eflat ++ [db.fresh]).length : Int)
    simp only [List.length_append, List.length_cons, List.length_nil]
    push_cast
    omega

theorem move_entry_counters (db : MDB) (ek gk : Nat) (db' : MDB)
    (h : move_entry db ek gk = some db') (hc : counters_ok db) :
    counters_ok db' := by
  obtain ⟨hg, he⟩ := hc
  unfold move_entry at h
  split at h
  case isFalse => simp at h
  case isTrue =>
  split at h
  case isFalse => simp at h
  case isTrue =>
  split at h
  · simp at h
  rename_i er her
  split at h
  · simp at h
  rename_i og hog
  split at h
  · simp at h
  rename_i cs hcs
  dsimp only at h
  split at h
  · simp at h
  rename_i grec hgrec
  simp only [Option.some.injEq] at h
  subst h
  exact ⟨hg, he⟩

theorem remove_group_counters :
    ∀ (fuel : Nat) (db : MDB) (gk : Nat) (db' : MDB),
      remove_group fuel db gk = some db' → counters_ok db → counters_ok db' := by
  intro fuel
  induction fuel with
  | zero =>
    intro db gk db' h hc
    simp [remove_group] at h
  | succ fuel ih =>
    intro db gk db' h hc
    unfold remove_group at h
    split at h
    case isFalse => simp at h
    case isTrue hmem =>
    split at h
    · simp at h
    rename_i grec hgrec
    split at h
    · simp at h
    rename_i pcs hpcs
    split at h
    · simp at h
    rename_i pcs2 hpcs2
    split at h
    · simp at h
    rename_i db1 hdb1
    split at h
    · simp at h
    rename_i fl hfl
    dsimp only at h
    split at h
    · simp at h
    rename_i db3 hfold
    obtain ⟨hfl1, hfl2, hfl3, hfl4⟩ := set_children_parts _ _ _ _ hdb1
    have hlen := py_remove_length _ _ _ hfl
    have hc2 : counters_ok
        { db1 with flat := fl, numGroups := db1.numGroups - 1 } := by
      obtain ⟨hg, he⟩ := hc
      constructor
      · show db1.numGroups - 1 = (fl.length : Int)
        rw [hfl3]
        rw [hfl1] at hlen
        omega
      · show db1.numEntries = (db1.eflat.length : Int)
        rw [hfl4, hfl2]
        exact he
    have hc3 : counters_ok db3 :=
      foldlM_option_pres counters_ok _ (fun b a b' hba hb => ih b a b' hba hb)
        grec.children _ db3 hfold hc2
    exact foldlM_option_pres counters_ok _
      (fun b a b' hba hb => remove_entry_counters b a b' hba hb)
      grec.entries db3 db' h hc3

/-- One `_move_group_helper` iteration keeps the counters matching (given
that the recursive helper calls do): the child is removed from and
re-inserted into the flat list. -/
theorem move_group_step_counters_of (fuel : Nat)
    (Hh : ∀ (db : MDB) (gk : Nat) (db' : MDB),
      move_group_helper fuel db gk = some db' → counters_ok db →
        counters_ok db') :
    ∀ (db : MDB) (gk c : Nat) (db' : MDB),
      move_group_step fuel db gk c = some db' → counters_ok db →
        counters_ok db' := by
  intro db gk c db' h hc
  obtain ⟨hg, he⟩ := hc
  unfold move_group_step at h
  split at h
  · simp at h
  rename_i fl hfl
  dsimp only at h
  split at h
  · simp at h
  rename_i g hgg
  split at h
  · simp at h
  rename_i crec hcrec
  split at h
  · simp at h
  rename_i idx hidx
  split at h
  · simp at h
  rename_i crec2 hcrec2
  have hlen := py_remove_length _ _ _ hfl
  have hc3 : counters_ok
      { setRec { db with flat := fl } c { crec with level := g.level + 1 } with
        flat := py_insert (setRec { db with flat := fl } c
          { crec with level := g.level + 1 }).flat (idx + 1) c } := by
    constructor
    · show db.numGroups = ((py_insert fl (idx + 1) c).length : Int)
      rw [py_insert_length]
      push_cast
      omega
    · exact he
  split at h
  · exact Hh _ _ _ h hc3
  · simp only [Option.some.injEq] at h
    subst h
    exact hc3

theorem move_group_helper_counters :
    ∀ (fuel : Nat) (db : MDB) (gk : Nat) (db' : MDB),
      move_group_helper fuel db gk = some db' → counters_ok db →
        counters_ok db' := by
  intro fuel
  induction fuel with
  | zero =>
    intro db gk db' h hc
    simp [move_group_helper] at h
  | succ fuel ih =>
    intro db gk db' h hc
    unfold move_group_helper at h
    split at h
    · simp at h
    rename_i grec hgrec
    exact foldlM_option_pres counters_ok _
      (fun b a b' hba hb => move_group_step_counters_of fuel ih b gk a b' hba hb)
      grec.children db db' h hc

theorem move_group_counters (fuel : Nat) (db : MDB) (gk : Nat)
    (parent : Option Nat) (db' : MDB)
    (h : move_group fuel db gk parent = some db') (hc : counters_ok db) :
    counters_ok db' := by
  obtain ⟨hg, he⟩ := hc
  unfold move_group at h
  split at h
  case isTrue => simp at h
  case isFalse =>
  dsimp only at h
  split at h
  case isFalse => simp at h
  case isTrue hmem =>
  split at h
  · simp at h
  rename_i grec hgrec
  split at h
  · simp at h
  rename_i fl hfl
  split at h
  · simp at h
  rename_i pcs hpcs
  split at h
  · simp at h
  rename_i pcs2 hpcs2
  split at h
  · simp at h
  rename_i db2 hdb2
  split at h
  · simp at h
  rename_i grec2 hgrec2
  split at h
  · simp at h
  rename_i newpcs hnewpcs
  split at h
  · simp at h
  rename_i db4 hdb4
  split at h
  · simp at h
  rename_i pcs3 hpcs3
  split at h
  · simp at h
  rename_i db5 hdb5
  split at h
  · simp at h
  rename_i db6 hdb6
  split at h
  · simp at h
  rename_i g4 hg4
  have hlen := py_remove_length _ _ _ hfl
  obtain ⟨h2f, h2e, h2g, h2n⟩ := set_children_parts _ _ _ _ hdb2
  have hdb3f : (setRec db2 gk { grec2 with parent := parent.getD 0 }).flat
      = db2.flat := rfl
  have hdb4p : db4.flat.length = fl.length + 1
      ∧ db4.eflat = db2.eflat ∧ db4.numGroups = db2.numGroups
      ∧ db4.numEntries = db2.numEntries := by
    split at hdb4
    · split at hdb4
      · split at hdb4
        · simp only [Option.some.injEq] at hdb4
          subst hdb4
          refine ⟨?_, rfl, rfl, rfl⟩
          simp only [List.length_append, List.length_cons, List.length_nil]
          rw [hdb3f, h2f]
        · split at hdb4
          · simp at hdb4
          · simp only [Option.some.injEq] at hdb4
            subst hdb4
            refine ⟨?_, rfl, rfl, rfl⟩
            rw [py_insert_length, hdb3f, h2f]
      · simp at hdb4
    · split at hdb4
      · simp at hdb4
      · simp only [Option.some.injEq] at hdb4
        subst hdb4
        refine ⟨?_, rfl, rfl, rfl⟩
        rw [py_insert_length, hdb3f, h2f]
  obtain ⟨h4l, h4e, h4g, h4n⟩ := hdb4p
  obtain ⟨h5f, h5e, h5g, h5n⟩ := set_children_parts _ _ _ _ hdb5
  have hdb6p : db6.flat = db5.flat ∧ db6.eflat = db5.eflat
      ∧ db6.numGroups = db5.numGroups ∧ db6.numEntries = db5.numEntries := by
    split at hdb6
    · split at hdb6
      · simp at hdb6
      · simp only [Option.some.injEq] at hdb6
        subst hdb6
        exact ⟨rfl, rfl, rfl, rfl⟩
    · split at hdb6
      · simp only [Option.some.injEq] at hdb6
        subst hdb6
        exact ⟨rfl, rfl, rfl, rfl⟩
      · simp at hdb6
  obtain ⟨h6f, h6e, h6g, h6n⟩ := hdb6p
  have hc6 : counters_ok db6 := by
    constructor
    · rw [h6g, h5g, h4g, h2g, h6f, h5f]
      show db.numGroups = (db4.flat.length : Int)
      rw [h4l]
      push_cast
      omega
    · rw [h6n, h5n, h4n, h2n, h6e, h5e, h4e, h2e]
      exact he
  split at h
  · exact move_group_helper_counters fuel db6 gk db' h hc6
  · simp only [Option.some.injEq] at h
    subst h
    exact hc6

theorem apply_op_counters (fuel : Nat) (db : MDB) (op : MOp) (db' : MDB)
    (h : apply_op fuel db op = some db') (hc : counters_ok db) :
    counters_ok db' := by
  cases op with
  | cg t p i => exact create_group_counters db t p i db' h hc
  | rg g => exact remove_group_counters fuel db g db' h hc
  | ce g i y mon d hh mi s => exact create_entry_counters db g i y mon d hh mi s db' h hc
  | re e => exact remove_entry_counters db e db' h hc
  | mg g p => exact move_group_counters fuel db g p db' h hc
  | me e g => exact move_entry_counters db e g db' h hc

theorem apply_ops_counters :
    ∀ (ops : List (Nat × MOp)) (db db' : MDB),
      apply_ops db ops = some db' → counters_ok db → counters_ok db' := by
  intro ops
  induction ops with
  | nil =>
    intro db db' h hc
    cases h
    exact hc
  | cons p rest ih =>
    intro db db' h hc
    unfold apply_ops at h
    split at h
    · simp at h
    · rename_i db1 hop
      exact ih db1 db' h (apply_op_counters p.1 db p.2 db1 hop hc)

/-- `counters_ok` lifted over an optional result (a failed operation has no
resulting state). -/
def counters_ok_opt : Option MDB → Prop
  | none => True
  | some db => counters_ok db

theorem lookup_set_ne {β : Type} (l : List (Nat × β)) (k k' : Nat) (g : β)
    (hne : k' ≠ k) :
    (l.map (fun p => if p.1 = k then (k, g) else p)).lookup k' = l.lookup k' := by
  induction l with
  | nil => rfl
  | cons p l ih =>
    simp only [List.map_cons]
    by_cases hp : p.1 = k
    · rw [if_pos hp]
      simp only [List.lookup]
      rw [show (k' == k) = false from beq_eq_false_iff_ne.mpr hne,
        show (k' == p.1) = false from beq_eq_false_iff_ne.mpr (hp ▸ hne)]
      exact ih
    · rw [if_neg hp]
      simp only [List.lookup]
      cases hkp : k' == p.1
      · exact ih
      · rfl

theorem lookup_set_self {β : Type} (l : List (Nat × β)) (k : Nat) (g g0 : β)
    (h : l.lookup k = some g0) :
    (l.map (fun p => if p.1 = k then (k, g) else p)).lookup k = some g := by
  induction l with
  | nil => simp [List.lookup] at h
  | cons p l ih =>
    simp only [List.map_cons]
    by_cases hp : p.1 = k
    · rw [if_pos hp]
      simp only [List.lookup, beq_self_eq_true]
    · rw [if_neg hp]
      simp only [List.lookup] at h ⊢
      rw [show (k == p.1) = false
        from beq_eq_false_iff_ne.mpr (fun he => hp he.symm)] at h ⊢
      exact ih h

theorem getRec_setRec_ne (db : MDB) (k k' : Nat) (g : MGroup) (h : k' ≠ k) :
    getRec (setRec db k g) k' = getRec db k' :=
  lookup_set_ne db.recs k k' g h

theorem getRec_setRec_self (db : MDB) (k : Nat) (g g0 : MGroup)
    (h : getRec db k = some g0) :
    getRec (setRec db k g) k = some g :=
  lookup_set_self db.recs k g g0 h

/-- The two-group parent cycle that `move_group(g, descendant)` creates:
group 1's children are `[2]`, group 2's children are `[1]`, and the flat
list holds exactly these two groups (in either order).  The levels and the
rest of the state are arbitrary: `_move_group_helper` keeps re-bumping the
levels while it bounces between the two groups. -/
def cyc_bad (db : MDB) : Prop :=
  (getRec db 1).map (·.children) = some [2]
    ∧ (getRec db 2).map (·.children) = some [1]
    ∧ (db.flat = [1, 2] ∨ db.flat = [2, 1])

instance (db : MDB) : Decidable (cyc_bad db) := by
  unfold cyc_bad
  infer_instance

/-- On a two-group parent cycle, `_move_group_helper` never terminates:
every recursion budget is exhausted, on either group. -/
theorem cyc_helper_none :
    ∀ (fuel : Nat) (db : MDB), cyc_bad db →
      move_group_helper fuel db 1 = none
        ∧ move_group_helper fuel db 2 = none := by
  intro fuel
  induction fuel with
  | zero =>
    intro db hbad
    constructor
    · unfold move_group_helper
      rfl
    · unfold move_group_helper
      rfl
  | succ fuel ih =>
    intro db hbad
    obtain ⟨hbad1, hbad2, hbad3⟩ := hbad
    have hstep12 : move_group_step fuel db 1 2 = none := by
      rcases hres : move_group_step fuel db 1 2 with _ | dbX
      · rfl
      exfalso
      unfold move_group_step at hres
      split at hres
      · simp at hres
      rename_i fl hfl
      dsimp only at hres
      split at hres
      · simp at hres
      rename_i g hgg
      split at hres
      · simp at hres
      rename_i crec hcrec
      split at hres
      · simp at hres
      rename_i idx hidx
      split at hres
      · simp at hres
      rename_i crec2 hcrec2
      have hfl' : fl = [1] := by
        rcases hbad3 with hflat | hflat
        · rw [hflat, show py_remove [1, 2] 2 = some [1] from rfl] at hfl
          cases hfl
          rfl
        · rw [hflat, show py_remove [2, 1] 2 = some [1] from rfl] at hfl
          cases hfl
          rfl
      subst hfl'
      have hgg' : getRec db 1 = some g := hgg
      have hcrec' : getRec db 2 = some crec := hcrec
      have hchc : crec.children = [1] := by
        rw [hcrec'] at hbad2
        simpa using hbad2
      have hidx' : idx = 0 := by
        have hidx2 : py_index [1] 1 = some idx := hidx
        rw [show py_index [1] 1 = some 0 from rfl] at hidx2
        cases hidx2
        rfl
      subst hidx'
      have hbadX : cyc_bad
          { setRec { db with flat := [1] } 2 { crec with level := g.level + 1 }
            with flat := py_insert (setRec { db with flat := [1] } 2
              { crec with level := g.level + 1 }).flat (0 + 1) 2 } := by
        refine ⟨?_, ?_, Or.inl rfl⟩
        · show ((getRec (setRec { db with flat := ([1] : List Nat) } 2
            { crec with level := g.level + 1 }) 1).map (·.children)) = some [2]
          rw [getRec_setRec_ne _ _ _ _ (by omega)]
          exact hbad1
        · show ((getRec (setRec { db with flat := ([1] : List Nat) } 2
            { crec with level := g.level + 1 }) 2).map (·.children)) = some [1]
          have hcrecF : getRec ({ db with flat := ([1] : List Nat) }) 2
              = some crec := hcrec'
          rw [getRec_setRec_self ({ db with flat := ([1] : List Nat) }) 2
            { crec with level := g.level + 1 } crec hcrecF]
          simpa using hchc
      have hc2X : crec2 = { crec with level := g.level + 1 } := by
        have hx : some { crec with level := g.level + 1 } = some crec2 := by
          rw [← getRec_setRec_self ({ db with flat := ([1] : List Nat) }) 2
            { crec with level := g.level + 1 } crec hcrec']
          exact hcrec2
        injection hx with hx2
        exact hx2.symm
      split at hres
      · rw [(ih _ hbadX).2] at hres
        exact Option.noConfusion hres
      · rename_i hne
        apply hne
        rw [hc2X]
        simp [hchc]
    have hstep21 : move_group_step fuel db 2 1 = none := by
      rcases hres : move_group_step fuel db 2 1 with _ | dbX
      · rfl
      exfalso
      unfold move_group_step at hres
      split at hres
      · simp at hres
      rename_i fl hfl
      dsimp only at hres
      split at hres
      · simp at hres
      rename_i g hgg
      split at hres
      · simp at hres
      rename_i crec hcrec
      split at hres
      · simp at hres
      rename_i idx hidx
      split at hres
      · simp at hres
      rename_i crec2 hcrec2
      have hfl' : fl = [2] := by
        rcases hbad3 with hflat | hflat
        · rw [hflat, show py_remove [1, 2] 1 = some [2] from rfl] at hfl
          cases hfl
          rfl
        · rw [hflat, show py_remove [2, 1] 1 = some [2] from rfl] at hfl
          cases hfl
          rfl
      subst hfl'
      have hgg' : getRec db 2 = some g := hgg
      have hcrec' : getRec db 1 = some crec := hcrec
      have hchc : crec.children = [2] := by
        rw [hcrec'] at hbad1
        simpa using hbad1
      have hidx' : idx = 0 := by
        have hidx2 : py_index [2] 2 = some idx := hidx
        rw [show py_index [2] 2 = some 0 from rfl] at hidx2
        cases hidx2
        rfl
      subst hidx'
      have hbadX : cyc_bad
          { setRec { db with flat := [2] } 1 { crec with level := g.level + 1 }
            with flat := py_insert (setRec { db with flat := [2] } 1
              { crec with level := g.level + 1 }).flat (0 + 1) 1 } := by
        refine ⟨?_, ?_, Or.inr rfl⟩
        · show ((getRec (setRec { db with flat := ([2] : List Nat) } 1
            { crec with level := g.level + 1 }) 1).map (·.children)) = some [2]
          have hcrecF : getRec ({ db with flat := ([2] : List Nat) }) 1
              = some crec := hcrec'
          rw [getRec_setRec_self ({ db with flat := ([2] : List Nat) }) 1
            { crec with level := g.level + 1 } crec hcrecF]
          simpa using hchc
        · show ((getRec (setRec { db with flat := ([2] : List Nat) } 1
            { crec with level := g.level + 1 }) 2).map (·.children)) = some [1]
          rw [getRec_setRec_ne _ _ _ _ (by omega)]
          exact hbad2
      have hc2X : crec2 = { crec with level := g.level + 1 } := by
        have hx : some { crec with level := g.level + 1 } = some crec2 := by
          rw [← getRec_setRec_self ({ db with flat := ([2] : List Nat) }) 1
            { crec with level := g.level + 1 } crec hcrec']
          exact hcrec2
        injection hx with hx2
        exact hx2.symm
      split at hres
      · rw [(ih _ hbadX).1] at hres
        exact Option.noConfusion hres
      · rename_i hne
        apply hne
        rw [hc2X]
        simp [hchc]
    constructor
    · rcases hres : move_group_helper (fuel + 1) db 1 with _ | dbX
      · rfl
      exfalso
      unfold move_group_helper at hres
      split at hres
      · simp at hres
      rename_i g1 hg1
      have hch : g1.children = [2] := by
        rw [hg1] at hbad1
        simpa using hbad1
      rw [hch, List.foldlM_cons, hstep12] at hres
      exact Option.noConfusion hres
    · rcases hres : move_group_helper (fuel + 1) db 2 with _ | dbX
      · rfl
      exfalso
      unfold move_group_helper at hres
      split at hres
      · simp at hres
      rename_i g2 hg2
      have hch : g2.children = [1] := by
        rw [hg2] at hbad2
        simpa using hbad2
      rw [hch, List.foldlM_cons, hstep21] at hres
      exact Option.noConfusion hres

/-- A vault with a root-level group (key 1, id 1) holding one child group
(key 2, id 2): the concrete instance for moving a group under its own
(proper) descendant. -/
def db10 : MDB :=
  { recs := [
      (1,
        { id_ := 1, title := "g", image := 1, level := 0,
          parent := 0, children := [2], entries := [] }),
      (2,
        { id_ := 2, title := "c", image := 1, level := 1,
          parent := 1, children := [], entries := [] })],
    erecs := [], flat := [1, 2], eflat := [], rootChildren := [1],
    numGroups := 2, numEntries := 0, fresh := 3 }

/-- The state `move_group(group 1, parent := group 2)` on `db10` reaches
just before `_move_group_helper` runs: groups 1 and 2 are now each other's
parents (`1.parent = 2` from the re-parenting, while `2.parent = 1` was
never changed) and each other's children. -/
def db10_mid : MDB :=
  { recs := [
      (1,
        { id_ := 1, title := "g", image := 1, level := 2,
          parent := 2, children := [2], entries := [] }),
      (2,
        { id_ := 2, title := "c", image := 1, level := 1,
          parent := 1, children := [1], entries := [] })],
    erecs := [], flat := [2, 1], eflat := [], rootChildren := [],
    numGroups := 2, numEntries := 0, fresh := 3 }

/-- On `db10`, moving group 1 under its child group 2 passes every argument
check, reaches the relinking phase in the `db10_mid` state, and then
`_move_group_helper` recurses forever: no recursion budget completes it. -/
theorem move_group_db10_none :
    ∀ fuel : Nat, move_group fuel db10 1 (some 2) = none := by
  intro fuel
  have hbridge : move_group fuel db10 1 (some 2)
      = move_group_helper fuel db10_mid 1 := rfl
  rw [hbridge]
  exact (cyc_helper_none fuel db10_mid (by decide)).1

/-- The fresh vault of `KPDBv1.__init__` with `new=True`
(database.py:122-128): one group "Internet" (id 1) under the root. -/
def fresh_vault : MDB :=
  { recs := [
      (1,
        { id_ := 1, title := "Internet", image := 1, level := 0,
          parent := 0, children := [], entries := [] })],
    erecs := [], flat := [1], eflat := [], rootChildren := [1],
    numGroups := 1, numEntries := 0, fresh := 2 }

end KPDB

open KPDB

/-- C1 (code bug): for a vault whose `_key_transf_rounds` is 1000 (< 150000),
the header that `save` packs still carries 1000 at offset 120, not 150000:
the clamp on database.py:411-412 assigns the misspelled attribute
`_key_tranf_rounds` (which becomes 150000) and leaves `_key_transf_rounds`
— the attribute that is packed — unchanged. -/
theorem C1_rounds_word_not_clamped :
    u32_at (save_header low_rounds_ctx).2 120 = 1000
      ∧ (save_header low_rounds_ctx).1.key_transf_rounds = 1000
      ∧ (save_header low_rounds_ctx).1.key_tranf_rounds = some 150000
      ∧ 1000 < 150000 :=
  ⟨by decide, by decide, by decide, by decide⟩

/-- C4 counterexample: a body whose single group record contains a field of
the unknown type `0x000A` (then a level field and the terminator) loads
successfully — `load` ignores the `False` returned by `_read_group_field`
for non-terminator fields, so the unknown field is silently skipped and no
error is raised. -/
theorem C4_counterexample :
    load_body 10 [0x0A, 0x00, 0x02, 0, 0, 0, 0xAB, 0xCD,
        0x08, 0x00, 0x02, 0, 0, 0, 0x00, 0x00,
        0xFF, 0xFF, 0, 0, 0, 0] 32 1 0
      = .ok ([{ level := some 0, parent := some .root }], [])
      ∧ (0x0A : Nat) ∉ known_group_types :=
  ⟨by decide, by decide⟩

/-- C4 (amended): a group or entry field whose type id is unknown is
silently skipped: one loop iteration on such a field raises no error and
continues past the payload with the record under construction, the counters
and the accumulated lists all unchanged (`_read_group_field` /
`_read_entry_field` return `False`, which `load` ignores). -/
theorem C4_unknown_field_skipped :
    (∀ (ng climit fuel pos cur : Nat) (group : LGroup) (levels : List Nat)
        (gs : List LGroup) (ft fs : Nat) (rest : List Nat),
        cur < ng → ft < 65536 → fs < 4294967296 →
        ft ∉ known_group_types → pos + 6 < climit →
        load_groups ng climit (fuel + 1) (pack_u16 ft ++ pack_u32 fs ++ rest)
            pos cur group levels gs
          = load_groups ng climit fuel (rest.drop fs) (pos + 6) cur group
              levels gs)
    ∧ (∀ (ne climit fuel pos cur : Nat) (entry : LEntry) (es : List LEntry)
        (ft fs : Nat) (rest : List Nat),
        cur < ne → ft < 65536 → fs < 4294967296 →
        ft ∉ known_entry_types → pos + 6 + fs < climit →
        load_entries ne climit (fuel + 1) (pack_u16 ft ++ pack_u32 fs ++ rest)
            pos cur entry es
          = load_entries ne climit fuel (rest.drop fs) (pos + 6 + fs) cur entry
              es) := by
  constructor
  · intro ng climit fuel pos cur group levels gs ft fs rest hcur hft hfs hunk hpos
    have h1 : ¬ (climit ≤ pos + 2) := by omega
    have h2 : ¬ (climit ≤ pos + 2 + 4) := by omega
    have h3 : ¬ (ft = 0xFFFF ∧ false = true) := by simp
    simp only [load_groups, List.append_assoc, if_pos hcur,
      read_u16_pack ft _ hft,
      drop_two_pack_u16, read_u32_pack fs _ hfs, drop_four_pack_u32,
      read_group_field_unknown group levels ft fs rest hunk,
      if_neg h1, if_neg h2, if_neg h3]
  · intro ne climit fuel pos cur entry es ft fs rest hcur hft hfs hunk hpos
    have h1 : ¬ (climit ≤ pos + 2) := by omega
    have h2 : ¬ (climit ≤ pos + 2 + 4) := by omega
    have h3 : ¬ (ft = 0xFFFF ∧ false = true) := by simp
    have h4 : ¬ ((ft = 0xFFFF ∧ false = true) ∧ entry.group_id = none) := by simp
    have h5 : ¬ (climit ≤ pos + 2 + 4 + fs) := by omega
    simp only [load_entries, List.append_assoc, if_pos hcur,
      read_u16_pack ft _ hft,
      drop_two_pack_u16, read_u32_pack fs _ hfs, drop_four_pack_u32,
      read_entry_field_unknown entry ft fs rest hunk,
      if_neg h1, if_neg h2, if_neg h3, if_neg h4, if_neg h5]

/-- C4 witness: a concrete unknown group field (type `0x000A`) and a
concrete unknown entry field (type `0x000F`) are skipped by one loop
iteration. -/
theorem C4_witness :
    load_groups 1 140 5
        (pack_u16 0x0A ++ pack_u32 2 ++ [0xAB, 0xCD, 0xFF, 0xFF, 0, 0, 0, 0])
        0 0 {} [] []
      = load_groups 1 140 4 ([0xAB, 0xCD, 0xFF, 0xFF, 0, 0, 0, 0].drop 2)
          6 0 {} [] []
    ∧ load_entries 1 140 5
        (pack_u16 0x0F ++ pack_u32 2 ++ [1, 2, 0xFF, 0xFF, 0, 0, 0, 0])
        0 0 {} []
      = load_entries 1 140 4 ([1, 2, 0xFF, 0xFF, 0, 0, 0, 0].drop 2)
          8 0 {} [] :=
  ⟨C4_unknown_field_skipped.1 1 140 4 0 0 {} [] [] 0x0A 2
      [0xAB, 0xCD, 0xFF, 0xFF, 0, 0, 0, 0] (by omega) (by omega) (by omega)
      (by decide) (by omega),
    C4_unknown_field_skipped.2 1 140 4 0 0 {} [] 0x0F 2
      [1, 2, 0xFF, 0xFF, 0, 0, 0, 0] (by omega) (by omega) (by omega)
      (by decide) (by omega)⟩

/-- C5 counterexample: a body announcing two groups but containing only one
(terminator-only) group record makes `load` raise a `struct.error` on the
second iteration — and the error state still holds the already-appended
group: the vault is not reset to the locked (empty-collections) state. -/
theorem C5_counterexample :
    load_body 10 [0xFF, 0xFF, 0, 0, 0, 0] 16 2 0
      = .error (.shortRead, [({} : LGroup)], [])
      ∧ [({} : LGroup)] ≠ [] :=
  ⟨by decide, by decide⟩

/-- C5 (amended): when the body-parsing loops of `load` fail, the
`self.groups` / `self.entries` collections at raise time extend the
collections the loop started from — nothing is cleared on any error path, so
a failure after some groups or entries were appended leaves them on the
vault object. -/
theorem C5_no_reset_on_error_amended :
    (∀ (ng climit fuel : Nat) (content : List Nat) (pos cur : Nat)
        (group : LGroup) (levels : List Nat) (gs : List LGroup)
        (e : LoadErr) (gs' : List LGroup),
        load_groups ng climit fuel content pos cur group levels gs
          = .error (e, gs') → gs <+: gs')
    ∧ (∀ (ne climit fuel : Nat) (content : List Nat) (pos cur : Nat)
        (entry : LEntry) (es : List LEntry) (e : LoadErr) (es' : List LEntry),
        load_entries ne climit fuel content pos cur entry es
          = .error (e, es') → es <+: es') := by
  constructor
  · intro ng climit fuel
    induction fuel with
    | zero =>
      intro content pos cur group levels gs e gs' h
      unfold load_groups at h
      split at h
      · simp only [Except.error.injEq, Prod.mk.injEq] at h
        rw [← h.2]
      · exact absurd h (by simp)
    | succ fuel ih =>
      intro content pos cur group levels gs e gs' h
      unfold load_groups at h
      dsimp only at h
      repeat' split at h
      all_goals first
        | (simp only [Except.error.injEq, Prod.mk.injEq] at h
           rw [← h.2])
        | (refine List.IsPrefix.trans ?_ (ih _ _ _ _ _ _ _ _ h)
           first
             | exact List.prefix_refl _
             | exact List.prefix_append _ _)
        | simp at h
  · intro ne climit fuel
    induction fuel with
    | zero =>
      intro content pos cur entry es e es' h
      unfold load_entries at h
      split at h
      · simp only [Except.error.injEq, Prod.mk.injEq] at h
        rw [← h.2]
      · exact absurd h (by simp)
    | succ fuel ih =>
      intro content pos cur entry es e es' h
      unfold load_entries at h
      dsimp only at h
      repeat' split at h
      all_goals first
        | (simp only [Except.error.injEq, Prod.mk.injEq] at h
           rw [← h.2]
           first
             | done
             | exact List.prefix_append _ _)
        | (refine List.IsPrefix.trans ?_ (ih _ _ _ _ _ _ _ h)
           first
             | exact List.prefix_refl _
             | exact List.prefix_append _ _)
        | simp at h

/-- C5 witness: on the two-groups-announced, one-group-present body, the
loop starts from an empty collection and ends in the error state holding the
appended group — the starting collection is a strict prefix, not a reset. -/
theorem C5_witness : ([] : List LGroup) <+: [({} : LGroup)] :=
  C5_no_reset_on_error_amended.1 2 140 10 [0xFF, 0xFF, 0, 0, 0, 0] 0 0 {} [] []
    .shortRead [{}] (by decide)

/-- C6 counterexample: a body with one group (id 1) and one entry whose
`group_id` is 2 — matching no group — loads successfully: the terminator
check only requires the `group_id` field to be present, and the attachment
loop of `_create_group_tree` silently leaves the entry with no owning group
(`entry.group` stays `None`). -/
theorem C6_counterexample :
    load_body 20 [1, 0, 4, 0, 0, 0, 1, 0, 0, 0,
        8, 0, 2, 0, 0, 0, 0, 0,
        0xFF, 0xFF, 0, 0, 0, 0,
        2, 0, 4, 0, 0, 0, 2, 0, 0, 0,
        0xFF, 0xFF, 0, 0, 0, 0] 48 1 1
      = .ok ([{ id_ := some 1, level := some 0, parent := some .root }],
          [{ group_id := some 2 }])
      ∧ (∀ g ∈ [({ id_ := some 1, level := some 0, parent := some .root }
          : LGroup)], g.id_ ≠ some 2)
      ∧ ({ group_id := some 2 } : LEntry).group = none :=
  ⟨by decide, by decide, rfl⟩

/-- C6 (amended): whenever the body phase of `load` completes successfully,
every loaded entry carries a `group_id` field (an absent `group_id` at
terminator time is the only condition that raises
`KPError('Found entry without group!')`); a `group_id` matching no group id
is not checked and does not prevent completion. -/
theorem C6_group_id_present_amended (fuel : Nat) (decrypted : List Nat)
    (clen ng ne : Nat) (gs : List LGroup) (es : List LEntry)
    (h : load_body fuel decrypted clen ng ne = .ok (gs, es)) :
    ∀ en ∈ es, en.group_id ≠ none := by
  unfold load_body at h
  dsimp only at h
  split at h
  · simp at h
  · rename_i r0 gs0 levels0 c0 p0 hg
    split at h
    · simp at h
    · rename_i r1 es0 c1 p1 he
      split at h
      · simp at h
      · rename_i r2 gs1 es1 ht
        simp only [Except.ok.injEq, Prod.mk.injEq] at h
        obtain ⟨_, h2⟩ := h
        subst h2
        have hes0 : ∀ en ∈ es0, en.group_id ≠ none :=
          load_entries_group_id ne (clen + 124) fuel c0 p0 0 {} [] es0 c1 p1
            (by intro en hen; cases hen) he
        exact create_group_tree_group_id gs0 es0 levels0 gs1 es1 hes0 ht

/-- C6 witness: the successful orphan-entry run has its (single) entry
carrying a `group_id` field. -/
theorem C6_witness :
    ({ group_id := some 2 } : LEntry).group_id ≠ none :=
  C6_group_id_present_amended 20 [1, 0, 4, 0, 0, 0, 1, 0, 0, 0,
      8, 0, 2, 0, 0, 0, 0, 0,
      0xFF, 0xFF, 0, 0, 0, 0,
      2, 0, 4, 0, 0, 0, 2, 0, 0, 0,
      0xFF, 0xFF, 0, 0, 0, 0] 48 1 1
    [{ id_ := some 1, level := some 0, parent := some .root }]
    [{ group_id := some 2 }] (by decide)
    ({ group_id := some 2 } : LEntry) (by simp)

/-- C7: the tree builder fails when `levels[0] ≠ 0`; on success, a group with
level 0 is attached to the root group, and a group `i` with positive level is
attached to the nearest `j < i` with `levels[j] < levels[i]`, which has
exactly `levels[i] - levels[j] = 1`; and when that nearest `j` is at level
difference ≠ 1 the builder fails. -/
theorem C7_tree_builder :
    (∀ (lv : List Nat) (n l0 : Nat), lv[0]? = some l0 → l0 ≠ 0 →
        create_group_tree_parents lv n = .error ())
    ∧ (∀ (lv : List Nat) (n : Nat) (ps : List (Option PRef)),
        create_group_tree_parents lv n = .ok ps →
        ∀ i < n, ∃ li, lv[i]? = some li
          ∧ (li = 0 → ps[i]? = some (some .root))
          ∧ (li ≠ 0 → ∃ j lj, ps[i]? = some (some (.up j)) ∧ j < i
              ∧ lv[j]? = some lj ∧ lj < li ∧ li - lj = 1
              ∧ ∀ k, j < k → k < i → ∃ lk, lv[k]? = some lk ∧ li ≤ lk))
    ∧ (∀ (lv : List Nat) (n i j li lj : Nat), i < n →
        lv[i]? = some li → li ≠ 0 → j < i → lv[j]? = some lj → lj < li →
        li - lj ≠ 1 →
        (∀ k, j < k → k < i → ∃ lk, lv[k]? = some lk ∧ li ≤ lk) →
        create_group_tree_parents lv n = .error ()) := by
  refine ⟨?_, ?_, ?_⟩
  · intro lv n l0 h0 hne
    unfold create_group_tree_parents
    rw [h0]
    simp [hne]
  · exact create_group_tree_parents_ok
  · intro lv n i j li lj hin hlvi hline hji hlvj hljlt hdne hnear
    apply except_unit_error
    intro ps hok
    obtain ⟨li', hli', _, hpos⟩ := create_group_tree_parents_ok lv n ps hok i hin
    rw [hlvi] at hli'
    cases hli'
    obtain ⟨j', lj', _, hj'i, hlvj', hlt', hdiff1, hnear'⟩ := hpos hline
    rcases Nat.lt_trichotomy j j' with hlt | heq | hgt
    · obtain ⟨lk, hlk, hge⟩ := hnear j' hlt hj'i
      rw [hlvj'] at hlk
      cases hlk
      omega
    · subst heq
      rw [hlvj] at hlvj'
      cases hlvj'
      omega
    · obtain ⟨lk, hlk, hge⟩ := hnear' j hgt hji
      rw [hlvj] at hlk
      cases hlk
      omega

/-- C7 witness: the builder rejects `levels = [1]`; for `levels = [0, 1, 2]`
it attaches group 2 to group 1 (the nearest smaller level, difference 1); and
it rejects `levels = [0, 2]`, where the nearest smaller level is at
difference 2. -/
theorem C7_witness :
    create_group_tree_parents [1] 1 = .error ()
      ∧ (∃ li, ([0, 1, 2] : List Nat)[2]? = some li
          ∧ (li = 0 →
              ([some .root, some (.up 0), some (.up 1)] : List (Option PRef))[2]?
                = some (some .root))
          ∧ (li ≠ 0 → ∃ j lj,
              ([some .root, some (.up 0), some (.up 1)] : List (Option PRef))[2]?
                = some (some (.up j)) ∧ j < 2
              ∧ ([0, 1, 2] : List Nat)[j]? = some lj ∧ lj < li ∧ li - lj = 1
              ∧ ∀ k, j < k → k < 2 → ∃ lk, ([0, 1, 2] : List Nat)[k]? = some lk
                  ∧ li ≤ lk))
      ∧ create_group_tree_parents [0, 2] 2 = .error () :=
  ⟨C7_tree_builder.1 [1] 1 1 (by decide) (by omega),
    C7_tree_builder.2.1 [0, 1, 2] 3 [some .root, some (.up 0), some (.up 1)]
      (by decide) 2 (by omega),
    C7_tree_builder.2.2 [0, 2] 2 1 0 2 0 (by omega) (by decide) (by omega)
      (by omega) (by decide) (by omega) (by omega)
      (fun k hk1 hk2 => absurd hk1 (by omega))⟩

/-- C9: for a keyfile of exactly 64 bytes, `_get_filekey` returns the 32
hex-decoded bytes when the content is valid hex, and otherwise the SHA-256
digest of the entire 64-byte content (the chunked read restarts at offset 0
after the failed hex decode), for any digest function `sha256`. -/
theorem C9_keyfile_64 (sha256 : List Nat → List Nat) (content : List Nat)
    (h64 : content.length = 64) :
    (∀ key, unhexlify content = some key →
        get_filekey sha256 content = key ∧ key.length = 32)
      ∧ (unhexlify content = none → get_filekey sha256 content = sha256 content) := by
  have htake : content.take 64 = content := by rw [← h64, List.take_length]
  constructor
  · intro key hkey
    constructor
    · unfold get_filekey
      rw [if_neg (by omega), if_pos h64, htake, hkey]
    · have := unhexlify_length content key hkey
      omega
  · intro hfail
    unfold get_filekey
    rw [if_neg (by omega), if_pos h64, htake, hfail, sha_stream_read_eq]

/-- C9 witness: 64 ASCII `'0'` bytes hex-decode to 32 zero bytes; replacing
the first byte by `'g'` makes the hex decode fail, and the key becomes the
digest of the full 64 bytes (the digest function instantiated by the
identity). -/
theorem C9_witness :
    (get_filekey (fun bs => bs) (List.replicate 64 48) = List.replicate 32 0
        ∧ (List.replicate 32 0 : List Nat).length = 32)
      ∧ get_filekey (fun bs => bs) (103 :: List.replicate 63 48)
          = 103 :: List.replicate 63 48 :=
  ⟨(C9_keyfile_64 (fun bs => bs) (List.replicate 64 48) (by decide)).1
      (List.replicate 32 0) (by decide),
    (C9_keyfile_64 (fun bs => bs) (103 :: List.replicate 63 48) (by decide)).2
      (by decide)⟩

/-- C2 counterexample: packing the timestamp `(9999, 12, 28, 23, 59, 59)` and
unpacking it does not return the original timestamp (the year comes back as
1807: `_pack_date` keeps only `year mod 4096`-worth of bits). -/
theorem C2_counterexample :
    get_date (pack_date 9999 12 28 23 59 59) = .ok (1807, 12, 28, 23, 59, 59)
      ∧ get_date (pack_date 9999 12 28 23 59 59) ≠ .ok (9999, 12, 28, 23, 59, 59) := by
  constructor
  · decide
  · decide

/-- C2 (amended): for every timestamp with `y ∈ [1, 4095]`, `mon ∈ [1, 12]`,
`d ∈ [1, 28]`, `h ∈ [0, 23]`, `min ∈ [0, 59]`, `s ∈ [0, 59]`, unpacking the
5-byte packed encoding yields the timestamp again:
`_get_date(_pack_date(t)) == t`. -/
theorem C2_date_round_trip_amended (y mon d h mi s : Nat)
    (hy1 : 1 ≤ y) (hy2 : y ≤ 4095) (hm1 : 1 ≤ mon) (hm2 : mon ≤ 12)
    (hd1 : 1 ≤ d) (hd2 : d ≤ 28) (hh : h ≤ 23) (hmi : mi ≤ 59) (hs : s ≤ 59) :
    get_date (pack_date y mon d h mi s) = .ok (y, mon, d, h, mi, s) := by
  have hlen := pack_date_length y mon d h mi s
  have hraw : get_date_raw ((pack_date y mon d h mi s).take 5)
      = (y, mon, d, h, mi, s) := by
    rw [← hlen, List.take_length]
    exact get_date_raw_pack_date y mon d h mi s (by omega) hm2 hd2 hh hmi hs
  have hok : datetime_ok (y, mon, d, h, mi, s) = true := by
    have h28 := days_in_month_ge_28 y mon
    simp only [datetime_ok, Bool.and_eq_true, decide_eq_true_eq]
    omega
  unfold get_date
  rw [hlen]
  simp only [hraw, hok, if_true, if_neg (by omega : ¬ (5 < 5))]

/-- C2 witness: the round trip at the "never expires" sentinel timestamp. -/
theorem C2_witness :
    get_date (pack_date 2999 12 28 23 59 59) = .ok (2999, 12, 28, 23, 59, 59) :=
  C2_date_round_trip_amended 2999 12 28 23 59 59 (by omega) (by omega) (by omega)
    (by omega) (by omega) (by omega) (by omega) (by omega) (by omega)

/-- C3 counterexample: on the packed date `[0, 4, 196, 16, 65]` the codec
decodes month 3 (reading the third byte `b2 = 196`), while the spec formula
`((b1 & 0x03) << 2) | (b3 >> 6)` (reading the fourth byte `b3 = 16`) gives 0;
the two disagree, so the month computation does not read `b3`. -/
theorem C3_counterexample :
    get_date [0, 4, 196, 16, 65] = .ok (1, 3, 2, 1, 1, 1)
      ∧ spec_month_from_b3 [0, 4, 196, 16, 65] = 0
      ∧ (3 : Nat) ≠ 0 := by
  refine ⟨by decide, by decide, by decide⟩

/-- C3 (amended): for every 5-byte packed date `b0..b4` the month decoded by
the date codec equals `((b1 & 0x03) << 2) | (b2 >> 6)`: the month computation
reads the third byte `b2`, not the fourth byte `b3`. -/
theorem C3_month_from_b2_amended (b : List Nat) (t : DateT)
    (h : get_date b = .ok t) :
    t.2.1 = ((b.getD 1 0 &&& 0x03) <<< 2) ||| (b.getD 2 0 >>> 6) := by
  unfold get_date at h
  split at h
  · exact absurd h (by simp)
  · split at h
    · cases h
      simp only [get_date_raw]
      have h1 : (b.take 5).getD 1 0 = b.getD 1 0 := by
        simp [List.getD, List.getElem?_take, (by omega : (1 : Nat) < 5)]
      have h2 : (b.take 5).getD 2 0 = b.getD 2 0 := by
        simp [List.getD, List.getElem?_take, (by omega : (2 : Nat) < 5)]
      rw [h1, h2]
    · exact absurd h (by simp)

/-- C3 witness: the amended month formula evaluated on a concrete packed
date, with the byte `b2 = 196` carrying the low month bits. -/
theorem C3_witness :
    (1, 3, 2, 1, 1, 1).2.1
      = (([0, 4, 196, 16, 65].getD 1 0 &&& 0x03) <<< 2)
          ||| ([0, 4, 196, 16, 65].getD 2 0 >>> 6) :=
  C3_month_from_b2_amended [0, 4, 196, 16, 65] (1, 3, 2, 1, 1, 1) (by decide)

/-- C8: for every vault whose stored counters match its collections, after
any finite sequence of successful `create_group`, `remove_group`,
`create_entry`, `remove_entry`, `move_group` and `move_entry` operations
the stored group counter equals the length of the groups collection and the
stored entry counter equals the length of the entries collection (a failed
sequence yields no state, and the property holds vacuously). -/
theorem C8_counter_law (db : MDB) (ops : List (Nat × MOp))
    (h : counters_ok db) : counters_ok_opt (apply_ops db ops) := by
  rcases hres : apply_ops db ops with _ | db1
  · exact True.intro
  · exact apply_ops_counters ops db db1 hres h

/-- C8 witness: the counter law applied to the fresh one-group vault and a
six-operation sequence exercising every facade operation once. -/
theorem C8_witness :
    counters_ok fresh_vault
      ∧ counters_ok_opt (apply_ops fresh_vault
          [(9, .cg "a" (some 1) 1), (9, .ce 2 1 2999 12 28 23 59 59),
            (9, .mg 2 none), (9, .me 3 1), (9, .re 3), (9, .rg 2)]) :=
  ⟨by decide, C8_counter_law fresh_vault
    [(9, .cg "a" (some 1) 1), (9, .ce 2 1 2999 12 28 23 59 59),
      (9, .mg 2 none), (9, .me 3 1), (9, .re 3), (9, .rg 2)] (by decide)⟩

/-- C10 counterexample: in the two-group vault `db10` (group 1 whose only
child is group 2), `move_group(group 1, parent := group 2)` passes every
argument check yet does not complete even at recursion budget 1000
(Python's default recursion limit): the run is still inside
`_move_group_helper`, so in Python the call raises `RecursionError`; it
does not return True. -/
theorem C10_counterexample :
    move_group 1000 db10 1 (some 2) = none :=
  move_group_db10_none 1000

/-- C10 (amended): moving a group under its own proper descendant passes
the argument checks — the only parent value `move_group` rejects is the
group itself — and re-links the two groups into the parent-cycle state
`db10_mid`, where groups 1 and 2 are each other's parents and children and
the pre-order flat-list invariant is broken; but `_move_group_helper` then
recurses forever between the two groups, so for every recursion budget the
call is still running: in Python it raises `RecursionError`, and it never
completes and never returns True. -/
theorem C10_move_under_descendant_diverges (fuel : Nat) :
    move_group fuel db10 1 (some 2) = move_group_helper fuel db10_mid 1
      ∧ move_group fuel db10 1 (some 2) = none :=
  ⟨rfl, move_group_db10_none fuel⟩
